import Mathlib

set_option maxRecDepth 16384

/-!
Verification of the LLM-mediated book-recommendation core of this repository
(`src/app2.py`, with `src/remd.py` as a near-identical variant).

The embedding translates the post-backend logic of `BookTasteAnalyzer` —
JSON extraction from free-form model output, the deterministic fallback
profile, score construction/matching/sorting, and the composition
`get_recommendations` — into executable Lean definitions.  The external
text-generation backend is an untrusted text source: it is modelled as an
explicit `Except GenError String` response supplied per potential call, and
each pipeline function additionally returns the number of backend calls it
performed.  Python machine floats appear only as results of exact small-
integer divisions and JSON literals and are modelled by `ℚ`; Python
exceptions are modelled by `Except PyErr`.
-/

/-- A parsed JSON value, as produced by Python's `json.loads`.  Numbers are
modelled exactly by `ℚ`; objects keep their raw field list in source order
(duplicate keys are resolved by `objGetD`, later binding winning, matching
Python's dict construction). -/
inductive Json where
  | null : Json
  | bool (b : Bool) : Json
  | num (q : ℚ) : Json
  | str (s : String) : Json
  | arr (elems : List Json) : Json
  | obj (fields : List (String × Json)) : Json
deriving Repr

/-- JSON whitespace accepted by Python's parser. -/
def isJsonWs (c : Char) : Bool :=
  c = ' ' || c = '\t' || c = '\n' || c = '\r'

/-- Drop leading JSON whitespace. -/
def skipWs : List Char → List Char
  | [] => []
  | c :: cs => if isJsonWs c then skipWs cs else c :: cs

/-- Hex digit value, for `\u` escapes. -/
def hexVal (c : Char) : Option Nat :=
  if '0' ≤ c ∧ c ≤ '9' then some (c.toNat - '0'.toNat)
  else if 'a' ≤ c ∧ c ≤ 'f' then some (c.toNat - 'a'.toNat + 10)
  else if 'A' ≤ c ∧ c ≤ 'F' then some (c.toNat - 'A'.toNat + 10)
  else none

/-- Body of a JSON string literal (opening quote already consumed):
accumulates characters until the closing quote, handling the standard
escapes; unescaped control characters are rejected as in Python's strict
mode. -/
def parseStrAux : List Char → List Char → Option (String × List Char)
  | acc, '"' :: rest => some (String.mk acc.reverse, rest)
  | acc, '\\' :: 'u' :: h1 :: h2 :: h3 :: h4 :: rest =>
    match hexVal h1, hexVal h2, hexVal h3, hexVal h4 with
    | some a, some b, some c, some d =>
        parseStrAux (Char.ofNat (((a * 16 + b) * 16 + c) * 16 + d) :: acc) rest
    | _, _, _, _ => none
  | acc, '\\' :: e :: rest =>
    (match e with
     | '"' => some '"'
     | '\\' => some '\\'
     | '/' => some '/'
     | 'b' => some (Char.ofNat 8)
     | 'f' => some (Char.ofNat 12)
     | 'n' => some '\n'
     | 'r' => some '\r'
     | 't' => some '\t'
     | _ => none).bind fun c => parseStrAux (c :: acc) rest
  | acc, c :: rest => if c.toNat < 32 then none else parseStrAux (c :: acc) rest
  | _, [] => none

/-- Consume a maximal run of decimal digits, returning their value, how many
there were, and the rest of the input. -/
def parseDigits : Nat → List Char → Nat × Nat × List Char
  | acc, c :: rest =>
    if '0' ≤ c ∧ c ≤ '9' then
      let (v, n, r) := parseDigits (acc * 10 + (c.toNat - '0'.toNat)) rest
      (v, n + 1, r)
    else (acc, 0, c :: rest)
  | acc, [] => (acc, 0, [])

/-- Exact rational value of a parsed JSON number
`sign * (iv + fnum / 10^flen) * 10^(esign * ev)`, assembled with `mkRat`
and integer arithmetic only. -/
def ratOfParts (neg : Bool) (iv fnum flen : Nat) (eneg : Bool) (ev : Nat) : ℚ :=
  let m : Int := Int.ofNat (iv * 10 ^ flen + fnum)
  let m : Int := if neg then -m else m
  if eneg then mkRat m (10 ^ flen * 10 ^ ev)
  else mkRat (m * Int.ofNat (10 ^ ev)) (10 ^ flen)

/-- JSON number grammar (`-? int frac? exp?`, no leading zeros), evaluated
exactly in `ℚ`. -/
def parseNum : List Char → Option (ℚ × List Char)
  | cs =>
    let (neg, cs₁) : Bool × List Char :=
      match cs with
      | '-' :: rest => (true, rest)
      | _ => (false, cs)
    match cs₁ with
    | c :: _ =>
      if ¬ ('0' ≤ c ∧ c ≤ '9') then none
      else
        let (iv, ilen, cs₂) := parseDigits 0 cs₁
        -- JSON forbids leading zeros: "0" alone is fine, "01" is not.
        if c = '0' ∧ ilen ≠ 1 then none
        else
          let (fnum, flen, fOk, cs₃) : Nat × Nat × Bool × List Char :=
            match cs₂ with
            | '.' :: rest =>
              let (v, n, r) := parseDigits 0 rest
              (v, n, decide (n ≠ 0), r)
            | _ => (0, 0, true, cs₂)
          if ¬ fOk then none
          else
            match cs₃ with
            | e :: rest =>
              if e = 'e' ∨ e = 'E' then
                let (eneg, rest₁) : Bool × List Char :=
                  match rest with
                  | '+' :: r => (false, r)
                  | '-' :: r => (true, r)
                  | _ => (false, rest)
                let (ev, elen, cs₄) := parseDigits 0 rest₁
                if elen = 0 then none
                else some (ratOfParts neg iv fnum flen eneg ev, cs₄)
              else some (ratOfParts neg iv fnum flen false 0, cs₃)
            | [] => some (ratOfParts neg iv fnum flen false 0, [])
    | [] => none

/-- What the recursive-descent parser is currently reading: a value, the
members of an array, or the members of an object (`first` is true before
any member has been read, so that `[]`/`{}` are accepted but `[1,]` is
not). -/
inductive PReq where
  | val : PReq
  | arrItems (first : Bool) (acc : List Json) : PReq
  | objItems (first : Bool) (acc : List (String × Json)) : PReq

/-- Fuel-indexed recursive descent over the JSON grammar: one structurally
recursive function covering values, array members and object members (the
fuel bounds grammar-rule nesting and is chosen large enough in
`jsonParse`). -/
def parseRun : Nat → PReq → List Char → Option (Json × List Char)
  | 0, _, _ => none
  | fuel + 1, .val, cs =>
    match skipWs cs with
    | '{' :: rest => parseRun fuel (.objItems true []) (skipWs rest)
    | '[' :: rest => parseRun fuel (.arrItems true []) (skipWs rest)
    | '"' :: rest => (parseStrAux [] rest).map fun p => (.str p.1, p.2)
    | 't' :: 'r' :: 'u' :: 'e' :: rest => some (.bool true, rest)
    | 'f' :: 'a' :: 'l' :: 's' :: 'e' :: rest => some (.bool false, rest)
    | 'n' :: 'u' :: 'l' :: 'l' :: rest => some (.null, rest)
    | cs₁ => (parseNum cs₁).map fun p => (.num p.1, p.2)
  | fuel + 1, .arrItems first acc, cs =>
    match cs, first with
    | ']' :: rest, true => some (.arr acc.reverse, rest)
    | _, _ =>
      match parseRun fuel .val cs with
      | none => none
      | some (v, rest) =>
        match skipWs rest with
        | ',' :: rest₁ => parseRun fuel (.arrItems false (v :: acc)) (skipWs rest₁)
        | ']' :: rest₁ => some (.arr (v :: acc).reverse, rest₁)
        | _ => none
  | fuel + 1, .objItems first acc, cs =>
    match cs, first with
    | '}' :: rest, true => some (.obj acc.reverse, rest)
    | _, _ =>
      match cs with
      | '"' :: cs₁ =>
        match parseStrAux [] cs₁ with
        | none => none
        | some (k, rest) =>
          match skipWs rest with
          | ':' :: rest₁ =>
            match parseRun fuel .val rest₁ with
            | none => none
            | some (v, rest₂) =>
              match skipWs rest₂ with
              | ',' :: rest₃ => parseRun fuel (.objItems false ((k, v) :: acc)) (skipWs rest₃)
              | '}' :: rest₃ => some (.obj ((k, v) :: acc).reverse, rest₃)
              | _ => none
          | _ => none
      | _ => none

/-- Model of Python's `json.loads`: parse one value and require only
whitespace to remain (`Extra data` otherwise); `none` models a raised
`json.JSONDecodeError`. -/
def jsonParse (s : String) : Option Json :=
  let cs := s.toList
  match parseRun (cs.length + 2) .val cs with
  | some (v, rest) => if (skipWs rest).isEmpty then some v else none
  | none => none

/-- Index of the first occurrence of `c`, if any (`str.find` before the `-1`
encoding). -/
def firstIdx (c : Char) : List Char → Option Nat
  | [] => none
  | x :: xs => if x = c then some 0 else (firstIdx c xs).map (· + 1)

/-- Index of the last occurrence of `c`, if any (`str.rfind` before the `-1`
encoding). -/
def lastIdx (c : Char) : List Char → Option Nat
  | [] => none
  | x :: xs =>
    match lastIdx c xs with
    | some j => some (j + 1)
    | none => if x = c then some 0 else none

/-- Python's `str.find`: first index of `c`, or `-1`. -/
def pyFind (cs : List Char) (c : Char) : Int :=
  match firstIdx c cs with
  | some i => (i : Int)
  | none => -1

/-- Python's `str.rfind`: last index of `c`, or `-1`. -/
def pyRFind (cs : List Char) (c : Char) : Int :=
  match lastIdx c cs with
  | some j => (j : Int)
  | none => -1

/-- Python slicing `s[a:b]` with possibly negative bounds: a negative bound
counts from the end (clamped at 0), and both bounds are clamped at the
length. -/
def pySlice (cs : List Char) (a b : Int) : List Char :=
  let n : Int := cs.length
  let a' : Nat := (if a < 0 then max (a + n) 0 else a).toNat
  let b' : Nat := (if b < 0 then max (b + n) 0 else b).toNat
  (cs.take b').drop a'

/-- The two JSON shapes the pipeline expects from the model
(`expected_shape` of the spec's `extract_json` contract). -/
inductive JShape where
  | object : JShape
  | array : JShape
deriving DecidableEq, Repr

/-- Opening bracket of a shape. -/
def JShape.openChar : JShape → Char
  | .object => '{'
  | .array => '['

/-- Closing bracket of a shape. -/
def JShape.closeChar : JShape → Char
  | .object => '}'
  | .array => ']'

/-- The spec's `ParseFailure`: the backend replied but its text did not
yield JSON; carries the raw text for diagnostics. -/
structure ParseFailure where
  raw : String
deriving DecidableEq, Repr

/-- JSON extraction exactly as inlined in `src/app2.py` (lines 133-141 for
the object shape, lines 265-273 for the array shape): slice from the first
opening bracket to the last closing bracket when such a pair exists,
otherwise parse the whole text; a parse error (`json.JSONDecodeError`,
caught by the enclosing handler) is the spec's `ParseFailure`. -/
def extractApp2 (shape : JShape) (content : String) : Except ParseFailure Json :=
  let cs := content.toList
  let start := pyFind cs shape.openChar
  let stop := pyRFind cs shape.closeChar + 1
  if start ≠ -1 ∧ stop > start then
    match jsonParse (String.mk (pySlice cs start stop)) with
    | some v => .ok v
    | none => .error ⟨content⟩
  else
    match jsonParse content with
    | some v => .ok v
    | none => .error ⟨content⟩

/-- JSON extraction exactly as inlined in `src/remd.py` (lines 85-88 for the
object shape, lines 153-156 for the array shape): the slice
`content[start:end]` is parsed unconditionally, with Python slice semantics
when `find`/`rfind` returned `-1`; any exception is caught by the enclosing
handler (`ParseFailure`). -/
def extractRemd (shape : JShape) (content : String) : Except ParseFailure Json :=
  let cs := content.toList
  let start := pyFind cs shape.openChar
  let stop := pyRFind cs shape.closeChar + 1
  match jsonParse (String.mk (pySlice cs start stop)) with
  | some v => .ok v
  | none => .error ⟨content⟩

/-- Modelled from the spec: the claimed behaviour of `extract_json`
(§4.1 steps 1-3), written from the spec's words and independent of the two
inline implementations: parse the substring from the first occurrence of
the opening bracket through the last occurrence of the closing bracket; if
no such bracket pair exists, parse the entire text; if parsing fails,
return `ParseFailure`. -/
def extractSpec (shape : JShape) (content : String) : Except ParseFailure Json :=
  let cs := content.toList
  let sliced : Option (List Char) :=
    match firstIdx shape.openChar cs, lastIdx shape.closeChar cs with
    | some i, some j =>
      if i < j then some ((cs.take (j + 1)).drop i) else none
    | _, _ => none
  match sliced with
  | some sub =>
    match jsonParse (String.mk sub) with
    | some v => .ok v
    | none => .error ⟨content⟩
  | none =>
    match jsonParse content with
    | some v => .ok v
    | none => .error ⟨content⟩

/-- The spec's `GenerationError{cause}`: the text-generation backend was
unreachable or rejected the request. -/
structure GenError where
  cause : String
deriving DecidableEq, Repr

/-- Python exceptions the embedded code can raise: a propagated backend
`GenerationError`, an `AttributeError` (calling `.get` on a non-dict), or a
`TypeError` (iterating a non-iterable / ordering incomparable values). -/
inductive PyErr where
  | genError (e : GenError) : PyErr
  | attributeError : PyErr
  | typeError : PyErr
deriving DecidableEq, Repr

/-- The `Book` dataclass; `__post_init__` replaces absent genre/theme
containers by `[]`, so they are plain lists here. -/
structure Book where
  title : String
  author : String
  genres : List String := []
  themes : List String := []
  year : Option Int := none
  description : Option String := none
deriving DecidableEq, Repr

/-- The `TasteProfile` dataclass.  On the LLM path every field is stored
exactly as `data.get` returned it, so all fields are raw `Json` values. -/
structure TasteProfile where
  favorite_genres : Json
  favorite_authors : Json
  common_themes : Json
  era_preferences : Json
  reading_level : Json
  diversity_score : Json
  summary : Json
deriving Repr

/-- The `BookScore` dataclass; all non-`book` fields are stored raw from
`score_data.get`. -/
structure BookScore where
  book : Book
  overall_score : Json
  genre_match : Json
  theme_match : Json
  author_similarity : Json
  novelty_score : Json
  reasoning : Json
  recommendation : Json
deriving Repr

/-- Python `dict.get(k, d)` on a parsed JSON object: the last binding of a
duplicated key wins, as in dict construction. -/
def objGetD (kvs : List (String × Json)) (k : String) (d : Json) : Json :=
  match kvs.reverse.find? (fun kv => kv.1 == k) with
  | some kv => kv.2
  | none => d

/-- Python `value.get(k, d)`: only dicts have `.get`; on any other value an
`AttributeError` is raised. -/
def jsonGet : Json → String → Json → Except PyErr Json
  | .obj kvs, k, d => .ok (objGetD kvs k d)
  | _, _, _ => .error .attributeError

/-- Keep the first occurrence of each string, in order (Python dict key
order). -/
def dedupFirst (seen : List String) : List String → List String
  | [] => []
  | k :: ks => if k ∈ seen then dedupFirst seen ks else k :: dedupFirst (k :: seen) ks

/-- Python `for x in value` over a parsed JSON value: arrays yield their
elements, dicts their keys, strings their characters; numbers, booleans and
`None` raise `TypeError`. -/
def pyIter : Json → Except PyErr (List Json)
  | .arr xs => .ok xs
  | .obj kvs => .ok ((dedupFirst [] (kvs.map Prod.fst)).map Json.str)
  | .str s => .ok (s.toList.map fun ch => Json.str (String.mk [ch]))
  | _ => .error .typeError

/-- `collections.Counter` as an insertion-ordered association list. -/
abbrev Counter := List (String × Nat)

/-- `counter[k] += 1`: increment an existing key in place, or append a new
key with count 1. -/
def counterIncr (c : Counter) (k : String) : Counter :=
  if c.any (fun kv => kv.1 == k) then
    c.map (fun kv => if kv.1 == k then (kv.1, kv.2 + 1) else kv)
  else c ++ [(k, 1)]

/-- `counter.update(iterable)`: count each element in order. -/
def counterUpdate (c : Counter) (ks : List String) : Counter :=
  ks.foldl counterIncr c

/-- Total number of counted occurrences (`sum(counter.values())`). -/
def sumCounts (c : Counter) : Nat :=
  (c.map Prod.snd).sum

/-- Stable insertion of `x` (an earlier element of the original list) into a
descending-sorted list: `x` goes before the first element whose key it
reaches or exceeds. -/
def insertDescBy [LinearOrder β] (key : α → β) (x : α) : List α → List α
  | [] => [x]
  | y :: ys => if key x < key y then y :: insertDescBy key x ys else x :: y :: ys

/-- Stable descending sort by key — the result Python's stable
`sorted(l, key=key, reverse=True)` produces. -/
def sortDescBy [LinearOrder β] (key : α → β) : List α → List α
  | [] => []
  | x :: xs => insertDescBy key x (sortDescBy key xs)

/-- `Counter.most_common(n)`: the `n` highest counts, ties in insertion
order (documented as `sorted(items, key=count, reverse=True)[:n]`). -/
def mostCommon (n : Nat) (c : Counter) : Counter :=
  (sortDescBy Prod.snd c).take n

/-- `BookTasteAnalyzer._create_basic_profile` (`src/app2.py` lines
158-182): the deterministic fallback profile built from frequency counts.
`src/remd.py` lines 103-121 is identical in every field except the summary
wording (it omits the authors clause) and the empty-list guard on
`diversity_score`. -/
def create_basic_profile (read_books : List Book) : TasteProfile :=
  let genre_counter : Counter :=
    read_books.foldl (fun c b => counterUpdate c b.genres) []
  let author_counter : Counter :=
    read_books.foldl (fun c b => counterIncr c b.author) []
  let theme_counter : Counter :=
    read_books.foldl (fun c b => counterUpdate c b.themes) []
  -- `total_genres = sum(genre_counter.values()) or 1`
  let total_genres : Nat := if sumCounts genre_counter = 0 then 1 else sumCounts genre_counter
  let favorite_genres : List (String × ℚ) :=
    (mostCommon 5 genre_counter).map (fun gc => (gc.1, mkRat (gc.2 : Int) total_genres))
  TasteProfile.mk
    (.obj (favorite_genres.map fun gw => (gw.1, Json.num gw.2)))
    (.obj ((mostCommon 5 author_counter).map fun ac => (ac.1, Json.num ac.2)))
    (.obj ((mostCommon 5 theme_counter).map fun tc => (tc.1, Json.num tc.2)))
    (.obj [])
    (.str "mixed")
    (.num (if read_books.isEmpty then 0 else mkRat (genre_counter.length : Int) read_books.length))
    (.str ("Enjoys " ++ String.intercalate ", " ((favorite_genres.map Prod.fst).take 3)
      ++ " with favorite authors including "
      ++ String.intercalate ", " ((author_counter.map Prod.fst).take 2)))

/-- Field mapping of a successfully parsed taste-profile response
(`src/app2.py` lines 143-151): each field defaults when absent; `.get` on a
non-dict parse result raises `AttributeError` (not caught — the handler
catches only `json.JSONDecodeError`). -/
def profileFromData (data : Json) : Except PyErr TasteProfile := do
  let fg ← jsonGet data "favorite_genres" (.obj [])
  let fa ← jsonGet data "favorite_authors" (.obj [])
  let ct ← jsonGet data "common_themes" (.obj [])
  let ep ← jsonGet data "era_preferences" (.obj [])
  let rl ← jsonGet data "reading_level" (.str "mixed")
  let ds ← jsonGet data "diversity_score" (.num (mkRat 1 2))
  let sm ← jsonGet data "summary" (.str "")
  return TasteProfile.mk fg fa ct ep rl ds sm

/-- The fixed sentinel profile returned for an empty reading history
(`src/app2.py` lines 76-85, `src/remd.py` line 64). -/
def sentinelProfile : TasteProfile :=
  TasteProfile.mk (.obj []) (.obj []) (.obj []) (.obj [])
    (.str "unknown") (.num 0) (.str "No books read yet.")

/-- `BookTasteAnalyzer.analyze_reading_taste` (`src/app2.py` lines 66-156).
The backend reply is passed in as `resp` (prompt construction is irrelevant
to an untrusted free-text source and is not modelled); the second component
counts backend calls.  The backend call itself sits outside the
`try`/`except`, so a backend error propagates. -/
def analyze_reading_taste (read_books : List Book) (resp : Except GenError String) :
    Except PyErr TasteProfile × Nat :=
  if read_books.isEmpty then
    (.ok sentinelProfile, 0)
  else
    match resp with
    | .error e => (.error (.genError e), 1)
    | .ok content =>
      match extractApp2 .object content with
      | .error _ => (.ok (create_basic_profile read_books), 1)
      | .ok data =>
        match profileFromData data with
        | .ok p => (.ok p, 1)
        | .error e => (.error e, 1)

/-- The `{b.title: b for b in unread_books}` dict: set a key, replacing in
place or appending. -/
def assocSet (d : List (String × Book)) (k : String) (v : Book) : List (String × Book) :=
  if d.any (fun kv => kv.1 == k) then
    d.map (fun kv => if kv.1 == k then (kv.1, v) else kv)
  else d ++ [(k, v)]

/-- The title→Book lookup built from `unread_books`; a later duplicate
title shadows an earlier one. -/
def mkLookup (books : List Book) : List (String × Book) :=
  books.foldl (fun d b => assocSet d b.title b) []

/-- The lookup `book_lookup.get` performs once its key is known to be
hashable: the dict's keys are all strings, so only a string key can match
and any other hashable key (`None`, a bool, a number) misses. -/
def lookupTitle (d : List (String × Book)) : Json → Option Book
  | .str s => (d.find? (fun kv => kv.1 == s)).map Prod.snd
  | _ => none

/-- Python `book_lookup.get(title)`: a list- or dict-valued key is
unhashable, so `.get` raises `TypeError`; every other JSON value is
hashable and simply misses unless it is a string equal to some key. -/
def dictGet (d : List (String × Book)) : Json → Except PyErr (Option Book)
  | .arr _ => .error .typeError
  | .obj _ => .error .typeError
  | j => .ok (lookupTitle d j)

/-- The score-construction loop of `score_unread_books` (`src/app2.py`
lines 279-294, `src/remd.py` lines 162-175): for each response element,
look its `title` up and either append a `BookScore` or silently skip it.
`.get` on a non-dict element raises `AttributeError`, and
`book_lookup.get` on a list- or dict-valued title raises `TypeError`;
neither is caught by any handler. -/
def mkBookScoresGo (book_lookup : List (String × Book)) :
    List Json → Except PyErr (List BookScore)
  | [] => .ok []
  | sd :: rest => do
    let title ← jsonGet sd "title" (.str "")
    let book? ← dictGet book_lookup title
    match book? with
    | none => mkBookScoresGo book_lookup rest
    | some book => do
      let os ← jsonGet sd "overall_score" (.num 0)
      let gm ← jsonGet sd "genre_match" (.num 0)
      let tm ← jsonGet sd "theme_match" (.num 0)
      let asim ← jsonGet sd "author_similarity" (.num 0)
      let ns ← jsonGet sd "novelty_score" (.num 0)
      let rs ← jsonGet sd "reasoning" (.str "")
      let rc ← jsonGet sd "recommendation" (.str "maybe")
      let tail ← mkBookScoresGo book_lookup rest
      return BookScore.mk book os gm tm asim ns rs rc :: tail

/-- The loop with its lookup built from `unread_books`. -/
def mkBookScores (scores_data : List Json) (unread_books : List Book) :
    Except PyErr (List BookScore) :=
  mkBookScoresGo (mkLookup unread_books) scores_data

/-- `Bool` as a Python number (`True == 1`, `False == 0`). -/
def boolQ (b : Bool) : ℚ := if b then 1 else 0

/-- Lexicographic comparison of code-point sequences (Python `<` on
strings). -/
def charsLt : List Char → List Char → Bool
  | [], [] => false
  | [], _ :: _ => true
  | _ :: _, [] => false
  | a :: as, b :: bs =>
    if a.toNat < b.toNat then true
    else if b.toNat < a.toNat then false
    else charsLt as bs

/-- Python `<` on scalar JSON values: numbers and booleans compare
numerically, strings lexicographically; any other combination is a
`TypeError` (`none`).  Python additionally orders two lists elementwise —
not modelled, and unused by every claim. -/
def jsonLt : Json → Json → Option Bool
  | .num a, .num b => some (decide (a < b))
  | .bool a, .bool b => some (decide (boolQ a < boolQ b))
  | .bool a, .num b => some (decide (boolQ a < b))
  | .num a, .bool b => some (decide (a < boolQ b))
  | .str a, .str b => some (charsLt a.data b.data)
  | _, _ => none

/-- One stable descending insertion step of the Python sort on
`overall_score`; comparing incomparable score values raises `TypeError`. -/
def insertScore (x : BookScore) : List BookScore → Except PyErr (List BookScore)
  | [] => .ok [x]
  | y :: ys =>
    match jsonLt x.overall_score y.overall_score with
    | none => .error .typeError
    | some true => do
      let tail ← insertScore x ys
      return y :: tail
    | some false => .ok (x :: y :: ys)

/-- `sorted(book_scores, key=lambda x: x.overall_score, reverse=True)` /
`book_scores.sort(...)`: the stable descending sort both sources apply. -/
def sortScores : List BookScore → Except PyErr (List BookScore)
  | [] => .ok []
  | x :: xs => do
    let s ← sortScores xs
    insertScore x s

/-- Everything `score_unread_books` does with a successfully extracted
value: iterate it, build the matched scores, sort them. -/
def scorePostParse (scores_json : Json) (unread_books : List Book) :
    Except PyErr (List BookScore) :=
  match pyIter scores_json with
  | .error e => .error e
  | .ok scores_data =>
    match mkBookScores scores_data unread_books with
    | .error e => .error e
    | .ok book_scores => sortScores book_scores

/-- `BookTasteAnalyzer.score_unread_books` (`src/app2.py` lines 184-303).
As with `analyze_reading_taste`, the backend reply is `resp` and the second
component counts backend calls; the backend call is outside the
`try`/`except`, which catches only `json.JSONDecodeError` (a `ParseFailure`
yields `[]`). -/
def score_unread_books (taste_profile : TasteProfile) (unread_books : List Book)
    (resp : Except GenError String) : Except PyErr (List BookScore) × Nat :=
  if unread_books.isEmpty then
    (.ok [], 0)
  else
    match resp with
    | .error e => (.error (.genError e), 1)
    | .ok content =>
      match extractApp2 .array content with
      | .error _ => (.ok [], 1)
      | .ok scores_json =>
        match scorePostParse scores_json unread_books with
        | .ok out => (.ok out, 1)
        | .error e => (.error e, 1)

/-- Python `l[:n]` truncation: a nonnegative `n` keeps the first `n`
elements, a negative `n` counts from the end. -/
def pySliceTo (l : List α) (n : Int) : List α :=
  l.take ((if n < 0 then max (n + l.length) 0 else n).toNat)

/-- `BookTasteAnalyzer.get_recommendations` (`src/app2.py` lines 305-331):
profile building, then scoring, then truncation of the scored list to
`top_n` (`None` keeps everything).  `resp1`/`resp2` are the backend replies
for the two potential calls; an exception from either stage propagates. -/
def get_recommendations (read_books unread_books : List Book) (top_n : Option Int)
    (resp1 resp2 : Except GenError String) :
    Except PyErr (TasteProfile × List BookScore) × Nat :=
  match analyze_reading_taste read_books resp1 with
  | (.error e, n1) => (.error e, n1)
  | (.ok taste_profile, n1) =>
    match score_unread_books taste_profile unread_books resp2 with
    | (.error e, n2) => (.error e, n1 + n2)
    | (.ok scored_books, n2) =>
      match top_n with
      | none => (.ok (taste_profile, scored_books), n1 + n2)
      | some n => (.ok (taste_profile, pySliceTo scored_books n), n1 + n2)

/-- Whether a JSON value is a number. -/
def Json.isNum : Json → Bool
  | .num _ => true
  | _ => false

/-- Whether a JSON value is an object. -/
def Json.isObj : Json → Bool
  | .obj _ => true
  | _ => false

/-- The rational carried by a JSON number (junk value 0 elsewhere; only
used under `isNum` hypotheses). -/
def scoreQ : Json → ℚ
  | .num q => q
  | _ => 0

/-- The `title` field a response element would present to the lookup. -/
def titleJson : Json → Json
  | .obj kvs => objGetD kvs "title" (.str "")
  | _ => .str ""

/-- Whether a JSON value is hashable as a Python dict key (lists and
dicts are not). -/
def jsonHashable : Json → Bool
  | .arr _ => false
  | .obj _ => false
  | _ => true

/-- Whether a response element's title field is a hashable value, i.e.
whether looking it up cannot raise. -/
def titleHashable (e : Json) : Bool := jsonHashable (titleJson e)

/-- Whether a response element bears exactly the given title. -/
def titleIs (t : String) (e : Json) : Bool :=
  match titleJson e with
  | .str s => s == t
  | _ => false

/-- The book (if any) a response element's title resolves to. -/
def elemLookup (lkp : List (String × Book)) (e : Json) : Option Book :=
  lookupTitle lkp (titleJson e)

/-- Pure characterization of the score-construction loop on arrays of
objects: keep exactly the elements whose title resolves, in response
order (non-object elements and unhashable titles, on which the loop would
raise, contribute nothing here; the lemmas using this only apply where the
loop succeeds). -/
def matchedScores (lkp : List (String × Book)) : List Json → List BookScore
  | [] => []
  | e :: rest =>
    match e with
    | .obj kvs =>
      (match lookupTitle lkp (objGetD kvs "title" (.str "")) with
       | none => matchedScores lkp rest
       | some book =>
         BookScore.mk book
           (objGetD kvs "overall_score" (.num 0))
           (objGetD kvs "genre_match" (.num 0))
           (objGetD kvs "theme_match" (.num 0))
           (objGetD kvs "author_similarity" (.num 0))
           (objGetD kvs "novelty_score" (.num 0))
           (objGetD kvs "reasoning" (.str ""))
           (objGetD kvs "recommendation" (.str "maybe")) :: matchedScores lkp rest)
    | _ => matchedScores lkp rest

/-- The sort key of a score entry, as a rational (only meaningful under
`isNum` hypotheses). -/
def scoreKey (s : BookScore) : ℚ := scoreQ s.overall_score

/-- The count a counter holds for `k` (0 when absent). -/
def countOf (c : Counter) (k : String) : Nat :=
  ((c.find? (fun kv => kv.1 == k)).map Prod.snd).getD 0

/-- Example read books (from the repository's `__main__` block). -/
def read3 : List Book :=
  [{ title := "1984", author := "George Orwell",
     genres := ["Dystopian", "Political Fiction"],
     themes := ["Totalitarianism", "Surveillance"], year := some 1949 },
   { title := "Brave New World", author := "Aldous Huxley",
     genres := ["Dystopian"], themes := ["Technology", "Control"], year := some 1932 },
   { title := "The Handmaid's Tale", author := "Margaret Atwood",
     genres := ["Dystopian"], themes := ["Oppression", "Gender"], year := some 1985 }]

/-- Example unread books A, B, C for the sorting example. -/
def unread3 : List Book :=
  [{ title := "A", author := "Ray Bradbury" },
   { title := "B", author := "Cormac McCarthy" },
   { title := "C", author := "J.K. Rowling" }]

/-- A scoring response with scores 40, 95, 70 for A, B, C. -/
def contentABC : String :=
  "[\x7b\"title\": \"A\", \"overall_score\": 40\x7d, \x7b\"title\": \"B\", \"overall_score\": 95\x7d, \x7b\"title\": \"C\", \"overall_score\": 70\x7d]"

/-- The parsed elements of `contentABC`. -/
def dataABC : List Json :=
  match extractApp2 .array contentABC with
  | .ok (.arr l) => l
  | _ => []

/-- The output of the scoring pipeline on `contentABC`. -/
def outABC : List BookScore :=
  match (score_unread_books sentinelProfile unread3 (.ok contentABC)).1 with
  | .ok l => l
  | .error _ => []

/-- Five unread books for the truncation example. -/
def unread5 : List Book :=
  [{ title := "U1", author := "a1" }, { title := "U2", author := "a2" },
   { title := "U3", author := "a3" }, { title := "U4", author := "a4" },
   { title := "U5", author := "a5" }]

/-- A scoring response scoring all five books. -/
def content5 : String :=
  "[\x7b\"title\": \"U1\", \"overall_score\": 50\x7d, \x7b\"title\": \"U2\", \"overall_score\": 90\x7d, \x7b\"title\": \"U3\", \"overall_score\": 70\x7d, \x7b\"title\": \"U4\", \"overall_score\": 20\x7d, \x7b\"title\": \"U5\", \"overall_score\": 60\x7d]"

/-- The scored sequence the pipeline produces for `content5`. -/
def scored5 : List BookScore :=
  match (score_unread_books (create_basic_profile read3) unread5 (.ok content5)).1 with
  | .ok l => l
  | .error _ => []

/-- A scoring response naming one real book, one hallucinated title and
one numeric (hashable but never-matching) title. -/
def contentGhost : String :=
  "[\x7b\"title\": \"A\", \"overall_score\": 10\x7d, \x7b\"title\": \"Ghost Book\", \"overall_score\": 99\x7d, \x7b\"title\": 7, \"overall_score\": 3\x7d]"

/-- The parsed elements of `contentGhost`. -/
def dataGhost : List Json :=
  match extractApp2 .array contentGhost with
  | .ok (.arr l) => l
  | _ => []

/-- The single unread book of the duplicate-entry example. -/
def bookA : Book := { title := "A", author := "Ray Bradbury" }

/-- A one-book batch. -/
def unread1 : List Book := [bookA]

/-- A scoring response naming the same title twice. -/
def contentDup : String :=
  "[\x7b\"title\": \"A\", \"overall_score\": 5\x7d, \x7b\"title\": \"A\", \"overall_score\": 7\x7d]"

/-- The parsed elements of `contentDup`. -/
def dataDup : List Json :=
  match extractApp2 .array contentDup with
  | .ok (.arr l) => l
  | _ => []

/-- The pipeline output on `contentDup`. -/
def outDup : List BookScore :=
  match (score_unread_books sentinelProfile unread1 (.ok contentDup)).1 with
  | .ok l => l
  | .error _ => []

section SortLemmas

variable {α : Type} {β : Type} [LinearOrder β] (key : α → β)

theorem insertDescBy_perm (x : α) (l : List α) :
    (insertDescBy key x l).Perm (x :: l) := by
  induction l with
  | nil => simp [insertDescBy]
  | cons y ys ih =>
    by_cases h : key x < key y
    · simp only [insertDescBy, if_pos h]
      exact (List.Perm.cons y ih).trans (List.Perm.swap x y ys)
    · simp [insertDescBy, if_neg h]

theorem sortDescBy_perm (l : List α) : (sortDescBy key l).Perm l := by
  induction l with
  | nil => simp [sortDescBy]
  | cons x xs ih =>
    exact (insertDescBy_perm key x (sortDescBy key xs)).trans (List.Perm.cons x ih)

theorem insertDescBy_pairwise (x : α) (l : List α)
    (h : l.Pairwise (fun a b => key b ≤ key a)) :
    (insertDescBy key x l).Pairwise (fun a b => key b ≤ key a) := by
  induction l with
  | nil => simp [insertDescBy]
  | cons y ys ih =>
    rw [List.pairwise_cons] at h
    by_cases hxy : key x < key y
    · simp only [insertDescBy, if_pos hxy]
      rw [List.pairwise_cons]
      refine ⟨fun z hz => ?_, ih h.2⟩
      rcases List.mem_cons.mp ((insertDescBy_perm key x ys).mem_iff.mp hz) with hzx | hzy
      · exact hzx ▸ hxy.le
      · exact h.1 z hzy
    · simp only [insertDescBy, if_neg hxy]
      rw [List.pairwise_cons]
      refine ⟨fun z hz => ?_, List.pairwise_cons.mpr h⟩
      rcases List.mem_cons.mp hz with hzy | hzys
      · exact hzy ▸ le_of_not_lt hxy
      · exact (h.1 z hzys).trans (le_of_not_lt hxy)

theorem sortDescBy_pairwise (l : List α) :
    (sortDescBy key l).Pairwise (fun a b => key b ≤ key a) := by
  induction l with
  | nil => simp [sortDescBy]
  | cons x xs ih => exact insertDescBy_pairwise key x _ ih

theorem insertDescBy_filter (x : α) (l : List α) (q : β) :
    (insertDescBy key x l).filter (fun a => decide (key a = q)) =
      (x :: l).filter (fun a => decide (key a = q)) := by
  induction l with
  | nil => rfl
  | cons y ys ih =>
    by_cases hxy : key x < key y
    · have hxq : ¬ (key x = q ∧ key y = q) := by
        rintro ⟨h1, h2⟩
        rw [h1, h2] at hxy
        exact lt_irrefl q hxy
      simp only [insertDescBy, if_pos hxy]
      by_cases hy : key y = q
      · have hx : ¬ key x = q := fun h => hxq ⟨h, hy⟩
        simp [List.filter_cons, hy, hx, ih]
      · by_cases hx : key x = q
        · simp [List.filter_cons, hy, hx, ih]
        · simp [List.filter_cons, hy, hx, ih]
    · simp [insertDescBy, if_neg hxy]

theorem sortDescBy_filter (l : List α) (q : β) :
    (sortDescBy key l).filter (fun a => decide (key a = q)) =
      l.filter (fun a => decide (key a = q)) := by
  induction l with
  | nil => rfl
  | cons x xs ih =>
    rw [sortDescBy, insertDescBy_filter key x _ q]
    by_cases hx : key x = q
    · simp [List.filter_cons, hx, ih]
    · simp [List.filter_cons, hx, ih]

end SortLemmas

section CounterLemmas

theorem counterIncr_any_iff (c : Counter) (k : String) :
    c.any (fun kv => kv.1 == k) = true ↔ k ∈ c.map Prod.fst := by
  simp [List.any_eq_true, List.mem_map]

theorem bump_map_fst (c : Counter) (k : String) :
    (c.map (fun kv => if kv.1 == k then (kv.1, kv.2 + 1) else kv)).map Prod.fst =
      c.map Prod.fst := by
  induction c with
  | nil => rfl
  | cons kv rest ih =>
    simp only [List.map_cons]
    rw [ih]
    by_cases h : kv.1 = k <;> simp [h]

theorem counterIncr_map_fst (c : Counter) (k : String) :
    (counterIncr c k).map Prod.fst =
      if k ∈ c.map Prod.fst then c.map Prod.fst else c.map Prod.fst ++ [k] := by
  unfold counterIncr
  by_cases h : c.any (fun kv => kv.1 == k) = true
  · rw [if_pos h, if_pos ((counterIncr_any_iff c k).mp h), bump_map_fst]
  · rw [if_neg h, if_neg (fun hm => h ((counterIncr_any_iff c k).mpr hm)), List.map_append]
    rfl

theorem counterIncr_nodup (c : Counter) (k : String)
    (h : (c.map Prod.fst).Nodup) : ((counterIncr c k).map Prod.fst).Nodup := by
  rw [counterIncr_map_fst]
  by_cases hk : k ∈ c.map Prod.fst
  · simpa [hk] using h
  · rw [if_neg hk]
    exact (List.perm_append_singleton k _).nodup_iff.mpr (List.nodup_cons.mpr ⟨hk, h⟩)

theorem find?_bump_same (c : Counter) (k : String) :
    (c.map (fun kv => if kv.1 == k then (kv.1, kv.2 + 1) else kv)).find?
        (fun kv => kv.1 == k) =
      (c.find? (fun kv => kv.1 == k)).map (fun kv => (kv.1, kv.2 + 1)) := by
  induction c with
  | nil => rfl
  | cons kv rest ih =>
    simp only [List.map_cons]
    by_cases h : kv.1 = k
    · rw [if_pos (by simp [h])]
      rw [List.find?_cons_of_pos _ (by simp [h])]
      rw [List.find?_cons_of_pos _ (by simp [h])]
      rfl
    · rw [if_neg (by simp [h])]
      rw [List.find?_cons_of_neg _ (by simp [h])]
      rw [List.find?_cons_of_neg _ (by simp [h])]
      exact ih

theorem countOf_counterIncr_same (c : Counter) (k : String) :
    countOf (counterIncr c k) k = countOf c k + 1 := by
  unfold counterIncr countOf
  by_cases h : c.any (fun kv => kv.1 == k) = true
  · rw [if_pos h, find?_bump_same]
    rcases List.any_eq_true.mp h with ⟨kv, hkv, hp⟩
    cases hf : c.find? (fun kv => kv.1 == k) with
    | none => exact absurd hp (List.find?_eq_none.mp hf kv hkv)
    | some kv₁ => simp
  · rw [if_neg h]
    have hnone : c.find? (fun kv => kv.1 == k) = none := by
      rw [List.find?_eq_none]
      intro x hx hpx
      exact h (List.any_eq_true.mpr ⟨x, hx, hpx⟩)
    rw [List.find?_append, hnone]
    simp

theorem find?_bump_other (c : Counter) (k k' : String) (hkk : k ≠ k') :
    (c.map (fun kv => if kv.1 == k' then (kv.1, kv.2 + 1) else kv)).find?
        (fun kv => kv.1 == k) =
      c.find? (fun kv => kv.1 == k) := by
  induction c with
  | nil => rfl
  | cons kv rest ih =>
    simp only [List.map_cons]
    by_cases h' : kv.1 = k'
    · have hne : ¬ kv.1 = k := fun hh => hkk (hh ▸ h' ▸ rfl)
      rw [if_pos (by simp [h'])]
      rw [List.find?_cons_of_neg _ (by simp [hne])]
      rw [List.find?_cons_of_neg _ (by simp [hne])]
      exact ih
    · rw [if_neg (by simp [h'])]
      by_cases hk : kv.1 = k
      · rw [List.find?_cons_of_pos _ (by simp [hk])]
        rw [List.find?_cons_of_pos _ (by simp [hk])]
      · rw [List.find?_cons_of_neg _ (by simp [hk])]
        rw [List.find?_cons_of_neg _ (by simp [hk])]
        exact ih

theorem countOf_counterIncr_other (c : Counter) (k k' : String) (h : k ≠ k') :
    countOf (counterIncr c k') k = countOf c k := by
  unfold counterIncr countOf
  by_cases ha : c.any (fun kv => kv.1 == k') = true
  · rw [if_pos ha, find?_bump_other c k k' h]
  · rw [if_neg ha, List.find?_append]
    have h1 : List.find? (fun kv => kv.1 == k) [(k', 1)] = none := by
      rw [List.find?_eq_none]
      intro x hx
      rcases List.mem_singleton.mp hx with rfl
      simp
      exact fun hh => h hh.symm
    cases hf : c.find? (fun kv => kv.1 == k) <;> simp [hf, h1]

theorem sumCounts_append (c d : Counter) :
    sumCounts (c ++ d) = sumCounts c + sumCounts d := by
  simp [sumCounts]

theorem bump_map_id (c : Counter) (k : String) (h : k ∉ c.map Prod.fst) :
    c.map (fun kv => if kv.1 == k then (kv.1, kv.2 + 1) else kv) = c := by
  induction c with
  | nil => rfl
  | cons kv rest ih =>
    have h1 : ¬ kv.1 = k := fun hh => h (by simp [hh])
    have h2 : k ∉ rest.map Prod.fst := fun hh => h (by simp [hh])
    simp only [List.map_cons]
    rw [if_neg (by simp [h1]), ih h2]

theorem sum_bump (c : Counter) (k : String) (hnd : (c.map Prod.fst).Nodup)
    (hk : k ∈ c.map Prod.fst) :
    sumCounts (c.map (fun kv => if kv.1 == k then (kv.1, kv.2 + 1) else kv)) =
      sumCounts c + 1 := by
  induction c with
  | nil => simp at hk
  | cons kv rest ih =>
    rw [List.map_cons, List.nodup_cons] at hnd
    by_cases h : kv.1 = k
    · have hrest : k ∉ rest.map Prod.fst := h ▸ hnd.1
      rw [List.map_cons, if_pos (by simp [h]), bump_map_id rest k hrest]
      simp [sumCounts]
      omega
    · have hk' : k ∈ rest.map Prod.fst := by
        rw [List.map_cons] at hk
        rcases List.mem_cons.mp hk with h1 | h1
        · exact absurd h1.symm h
        · exact h1
      rw [List.map_cons, if_neg (by simp [h])]
      have := ih hnd.2 hk'
      simp [sumCounts] at this ⊢
      omega

theorem sumCounts_counterIncr (c : Counter) (k : String)
    (hnd : (c.map Prod.fst).Nodup) :
    sumCounts (counterIncr c k) = sumCounts c + 1 := by
  unfold counterIncr
  by_cases h : c.any (fun kv => kv.1 == k) = true
  · rw [if_pos h]
    exact sum_bump c k hnd ((counterIncr_any_iff c k).mp h)
  · rw [if_neg h, sumCounts_append]
    simp [sumCounts]

theorem foldl_counterIncr_nodup (l : List String) :
    ∀ c : Counter, (c.map Prod.fst).Nodup →
      ((l.foldl counterIncr c).map Prod.fst).Nodup := by
  induction l with
  | nil => exact fun c h => h
  | cons k rest ih => exact fun c h => ih _ (counterIncr_nodup c k h)

theorem foldl_counterIncr_countOf (l : List String) :
    ∀ (c : Counter) (k : String),
      countOf (l.foldl counterIncr c) k = countOf c k + l.count k := by
  induction l with
  | nil => simp
  | cons k' rest ih =>
    intro c k
    rw [List.foldl_cons, ih]
    by_cases h : k = k'
    · subst h
      rw [countOf_counterIncr_same, List.count_cons_self]
      omega
    · rw [countOf_counterIncr_other c k k' h, List.count_cons_of_ne h]

theorem foldl_counterIncr_sum (l : List String) :
    ∀ c : Counter, (c.map Prod.fst).Nodup →
      sumCounts (l.foldl counterIncr c) = sumCounts c + l.length := by
  induction l with
  | nil => simp
  | cons k rest ih =>
    intro c hnd
    rw [List.foldl_cons, ih _ (counterIncr_nodup c k hnd), sumCounts_counterIncr c k hnd]
    simp
    omega

theorem foldl_counterIncr_mem (l : List String) :
    ∀ (c : Counter) (k : String),
      k ∈ (l.foldl counterIncr c).map Prod.fst ↔ k ∈ c.map Prod.fst ∨ k ∈ l := by
  induction l with
  | nil => simp
  | cons k' rest ih =>
    intro c k
    rw [List.foldl_cons, ih, counterIncr_map_fst]
    by_cases hk' : k' ∈ c.map Prod.fst
    · rw [if_pos hk']
      constructor
      · rintro (h | h)
        · exact Or.inl h
        · exact Or.inr (List.mem_cons_of_mem _ h)
      · rintro (h | h)
        · exact Or.inl h
        · rcases List.mem_cons.mp h with rfl | h
          · exact Or.inl hk'
          · exact Or.inr h
    · rw [if_neg hk']
      simp only [List.mem_append, List.mem_singleton, List.mem_cons]
      tauto

theorem mem_count_eq (c : Counter) (hnd : (c.map Prod.fst).Nodup) :
    ∀ kv ∈ c, kv.2 = countOf c kv.1 := by
  induction c with
  | nil => simp
  | cons hd rest ih =>
    rw [List.map_cons, List.nodup_cons] at hnd
    intro kv hkv
    rcases List.mem_cons.mp hkv with rfl | hkv₁
    · unfold countOf
      rw [List.find?_cons_of_pos _ (by simp)]
      rfl
    · have h1 : ¬ hd.1 = kv.1 := fun hh =>
        hnd.1 (hh ▸ List.mem_map.mpr ⟨kv, hkv₁, rfl⟩)
      unfold countOf
      rw [List.find?_cons_of_neg _ (by simp [h1])]
      exact ih hnd.2 kv hkv₁

end CounterLemmas

section ExtractionLemmas

theorem firstIdx_get (c : Char) :
    ∀ (cs : List Char) (i : Nat), firstIdx c cs = some i → cs[i]? = some c := by
  intro cs
  induction cs with
  | nil => intro i h; simp [firstIdx] at h
  | cons x xs ih =>
    intro i h
    unfold firstIdx at h
    by_cases hx : x = c
    · rw [if_pos hx] at h
      cases h
      simpa using hx
    · rw [if_neg hx] at h
      cases hf : firstIdx c xs with
      | none => rw [hf] at h; cases h
      | some i' =>
        rw [hf] at h
        simp at h
        subst h
        simpa using ih i' hf

theorem lastIdx_get (c : Char) :
    ∀ (cs : List Char) (j : Nat), lastIdx c cs = some j → cs[j]? = some c := by
  intro cs
  induction cs with
  | nil => intro j h; simp [lastIdx] at h
  | cons x xs ih =>
    intro j h
    unfold lastIdx at h
    cases hr : lastIdx c xs with
    | some j' =>
      rw [hr] at h
      cases h
      simpa using ih j' hr
    | none =>
      rw [hr] at h
      by_cases hx : x = c
      · rw [if_pos hx] at h
        cases h
        simpa using hx
      · rw [if_neg hx] at h; cases h

theorem lastIdx_lt (c : Char) (cs : List Char) (j : Nat)
    (h : lastIdx c cs = some j) : j < cs.length := by
  have := lastIdx_get c cs j h
  exact (List.getElem?_eq_some.mp this).1

theorem firstIdx_lt (c : Char) (cs : List Char) (i : Nat)
    (h : firstIdx c cs = some i) : i < cs.length := by
  have := firstIdx_get c cs i h
  exact (List.getElem?_eq_some.mp this).1

theorem shape_open_ne_close (shape : JShape) : shape.openChar ≠ shape.closeChar := by
  cases shape <;> decide

theorem pySlice_natCast (cs : List Char) (i j : Nat) :
    pySlice cs (i : Int) (j : Int) = (cs.take j).drop i := by
  have h1 : ¬ ((i : Int) < 0) := by omega
  have h2 : ¬ ((j : Int) < 0) := by omega
  simp [pySlice, h1, h2]

theorem pySlice_zero (cs : List Char) (a : Int) : pySlice cs a 0 = [] := by
  simp [pySlice]

theorem jsonParse_nil : jsonParse (String.mk []) = none := rfl

theorem jsonParse_close (shape : JShape) :
    jsonParse (String.mk [shape.closeChar]) = none := by
  cases shape <;> rfl

end ExtractionLemmas

theorem extractApp2_eq_extractSpec (shape : JShape) (content : String) :
    extractApp2 shape content = extractSpec shape content := by
  cases h1 : firstIdx shape.openChar content.data with
  | none =>
    cases h2 : lastIdx shape.closeChar content.data with
    | none => simp [extractApp2, extractSpec, pyFind, pyRFind, h1, h2]
    | some j => simp [extractApp2, extractSpec, pyFind, pyRFind, h1, h2]
  | some i =>
    cases h2 : lastIdx shape.closeChar content.data with
    | none =>
      have hc : ¬ (((i : Nat) : Int) ≠ -1 ∧ (-1 : Int) + 1 > ((i : Nat) : Int)) := by
        omega
      simp only [extractApp2, extractSpec, pyFind, pyRFind, String.toList, h1, h2]
      rw [if_neg hc]
    | some j =>
      have hget1 := firstIdx_get _ _ _ h1
      have hget2 := lastIdx_get _ _ _ h2
      have hij : i ≠ j := by
        intro hh
        rw [hh, hget2] at hget1
        exact shape_open_ne_close shape (Option.some.inj hget1).symm
      simp only [extractApp2, extractSpec, pyFind, pyRFind, String.toList, h1, h2]
      by_cases hlt : i < j
      · have hc : (((i : Nat) : Int) ≠ -1 ∧ ((j : Nat) : Int) + 1 > ((i : Nat) : Int)) := by
          constructor <;> omega
        rw [if_pos hc, if_pos hlt]
        have hcast : ((j : Int) + 1) = (((j + 1 : Nat)) : Int) := by push_cast; ring
        rw [hcast, pySlice_natCast]
      · have hc : ¬ (((i : Nat) : Int) ≠ -1 ∧ ((j : Nat) : Int) + 1 > ((i : Nat) : Int)) := by
          rintro ⟨hone, htwo⟩
          have : j < i := by omega
          omega
        rw [if_neg hc, if_neg hlt]

theorem pySlice_neg_one (cs : List Char) (b : Nat) :
    pySlice cs (-1) (b : Int) = (cs.take b).drop (cs.length - 1) := by
  have h2 : ¬ ((b : Int) < 0) := by omega
  simp only [pySlice, if_pos (show (-1 : Int) < 0 by omega), if_neg h2]
  have h3 : ((-1 + (cs.length : Int)) ⊔ 0).toNat = cs.length - 1 := by omega
  rw [h3]
  simp

theorem extractRemd_eq_app2_of_pair (shape : JShape) (content : String)
    (i j : Nat) (h1 : firstIdx shape.openChar content.data = some i)
    (h2 : lastIdx shape.closeChar content.data = some j) (hij : i < j) :
    extractRemd shape content = extractApp2 shape content := by
  simp only [extractRemd, extractApp2, pyFind, pyRFind, String.toList, h1, h2]
  have hc : (((i : Nat) : Int) ≠ -1 ∧ ((j : Nat) : Int) + 1 > ((i : Nat) : Int)) := by
    constructor <;> omega
  rw [if_pos hc]

theorem extractRemd_noPair (shape : JShape) (content : String)
    (h : ∀ i j, firstIdx shape.openChar content.data = some i →
      lastIdx shape.closeChar content.data = some j → ¬ i < j) :
    extractRemd shape content = Except.error ⟨content⟩ := by
  cases h1 : firstIdx shape.openChar content.data with
  | none =>
    cases h2 : lastIdx shape.closeChar content.data with
    | none =>
      simp only [extractRemd, pyFind, pyRFind, String.toList, h1, h2]
      have hz : pySlice content.data (-1) (-1 + 1) = [] := by
        rw [(by ring : (-1 + 1 : Int) = 0)]
        exact pySlice_zero _ _
      rw [hz, jsonParse_nil]
    | some j =>
      have hj := lastIdx_lt _ _ _ h2
      have hget2 := lastIdx_get _ _ _ h2
      simp only [extractRemd, pyFind, pyRFind, String.toList, h1, h2]
      have hcast : ((j : Int) + 1) = (((j + 1 : Nat)) : Int) := by push_cast; ring
      rw [hcast, pySlice_neg_one]
      by_cases hlen : j + 1 = content.data.length
      · have htake : content.data.take (j + 1) = content.data := by
          rw [hlen, List.take_length]
        have hd : content.data.length - 1 = j := by omega
        rw [htake, hd, List.drop_eq_getElem_cons hj]
        obtain ⟨hlt, heq⟩ := List.getElem?_eq_some.mp hget2
        rw [heq]
        have hdrop : content.data.drop (j + 1) = [] := by
          rw [List.drop_eq_nil_iff]
          omega
        rw [hdrop, jsonParse_close]
      · have hnil : (content.data.take (j + 1)).drop (content.data.length - 1) = [] := by
          rw [List.drop_eq_nil_iff, List.length_take]
          omega
        rw [hnil, jsonParse_nil]
  | some i =>
    cases h2 : lastIdx shape.closeChar content.data with
    | none =>
      simp only [extractRemd, pyFind, pyRFind, String.toList, h1, h2]
      have hz : pySlice content.data (i : Int) (-1 + 1) = [] := by
        rw [(by ring : (-1 + 1 : Int) = 0)]
        exact pySlice_zero _ _
      rw [hz, jsonParse_nil]
    | some j =>
      have hji : ¬ i < j := h i j h1 h2
      have hget1 := firstIdx_get _ _ _ h1
      have hget2 := lastIdx_get _ _ _ h2
      have hij : i ≠ j := by
        intro hh
        rw [hh, hget2] at hget1
        exact shape_open_ne_close shape (Option.some.inj hget1).symm
      simp only [extractRemd, pyFind, pyRFind, String.toList, h1, h2]
      have hcast : ((j : Int) + 1) = (((j + 1 : Nat)) : Int) := by push_cast; ring
      rw [hcast, pySlice_natCast]
      have hnil : (content.data.take (j + 1)).drop i = [] := by
        rw [List.drop_eq_nil_iff, List.length_take]
        omega
      rw [hnil, jsonParse_nil]

/-- Claim C1, counterexample.  On input `"[1, 2]"` (valid JSON containing no
brace pair) with object shape, the extraction of `src/remd.py` returns
`ParseFailure`, whereas the claimed behaviour — attempt to parse the entire
text as JSON directly — succeeds with the array `[1, 2]`. -/
theorem C1_counterexample :
    extractRemd .object "[1, 2]" = Except.error ⟨"[1, 2]"⟩
    ∧ extractSpec .object "[1, 2]" = Except.ok (.arr [.num 1, .num 2])
    ∧ extractRemd .object "[1, 2]" ≠ extractSpec .object "[1, 2]" := by
  refine ⟨rfl, rfl, ?_⟩
  intro hcontra
  have h1 : extractRemd JShape.object "[1, 2]" = Except.error ⟨"[1, 2]"⟩ := rfl
  have h2 : extractSpec JShape.object "[1, 2]" = Except.ok (.arr [.num 1, .num 2]) := rfl
  rw [h1, h2] at hcontra
  exact Except.noConfusion hcontra

/-- Claim C1 (amended): the extraction of `src/app2.py` behaves exactly as
the claim describes (slice from first opening to last closing bracket when
such a pair exists, otherwise parse the whole text, `ParseFailure` when
parsing fails) — proved as equality with the spec-modelled `extractSpec` on
every input.  The extraction of `src/remd.py` omits the whole-text parse:
it coincides with `src/app2.py` whenever a bracket pair exists, and
otherwise always returns `ParseFailure`, even when the entire text is valid
JSON.  Both return `{"a":1}` on the claim's first example and
`ParseFailure` on its second. -/
theorem C1_extract_json_amended :
    (∀ (shape : JShape) (content : String),
        extractApp2 shape content = extractSpec shape content)
    ∧ (∀ (shape : JShape) (content : String),
        (∀ i j, firstIdx shape.openChar content.data = some i →
          lastIdx shape.closeChar content.data = some j → ¬ i < j) →
        extractRemd shape content = Except.error ⟨content⟩)
    ∧ (∀ (shape : JShape) (content : String) (i j : Nat),
        firstIdx shape.openChar content.data = some i →
        lastIdx shape.closeChar content.data = some j → i < j →
        extractRemd shape content = extractApp2 shape content)
    ∧ extractApp2 .object "Here is the result:\n\x7b\"a\":1\x7d\nThanks!" =
        Except.ok (.obj [("a", .num 1)])
    ∧ extractRemd .object "Here is the result:\n\x7b\"a\":1\x7d\nThanks!" =
        Except.ok (.obj [("a", .num 1)])
    ∧ extractApp2 .object "not json at all" = Except.error ⟨"not json at all"⟩
    ∧ extractRemd .object "not json at all" = Except.error ⟨"not json at all"⟩ :=
  ⟨extractApp2_eq_extractSpec, extractRemd_noPair,
    fun shape content i j h1 h2 hij => extractRemd_eq_app2_of_pair shape content i j h1 h2 hij,
    rfl, rfl, rfl, rfl⟩

/-- Claim C1, witness: the amended theorem evaluated at concrete inputs. -/
theorem C1_witness :
    extractApp2 .object "[1, 2]" = extractSpec .object "[1, 2]"
    ∧ extractRemd .object "[1, 2]" = Except.error ⟨"[1, 2]"⟩
    ∧ extractRemd .array "Scores: [1, 2]" = extractApp2 .array "Scores: [1, 2]" := by
  have hnone : firstIdx JShape.object.openChar ("[1, 2]" : String).data = none := rfl
  refine ⟨C1_extract_json_amended.1 .object "[1, 2]",
    C1_extract_json_amended.2.1 .object "[1, 2]"
      (fun i j h1 _ => Option.noConfusion (hnone.symm.trans h1)),
    C1_extract_json_amended.2.2.1 .array "Scores: [1, 2]" 8 13 rfl rfl (by omega)⟩

section ScoreLemmas

theorem isNum_iff (j : Json) : j.isNum = true ↔ ∃ q, j = .num q := by
  cases j <;> simp [Json.isNum]

theorem isObj_iff (j : Json) : j.isObj = true ↔ ∃ kvs, j = .obj kvs := by
  cases j <;> simp [Json.isObj]

theorem dictGet_hashable (d : List (String × Book)) (j : Json)
    (h : jsonHashable j = true) : dictGet d j = .ok (lookupTitle d j) := by
  cases j with
  | arr xs => exact Bool.noConfusion h
  | obj kvs => exact Bool.noConfusion h
  | null => rfl
  | bool b => rfl
  | num q => rfl
  | str s => rfl

theorem dictGet_ok_inv (d : List (String × Book)) (j : Json) (mb : Option Book)
    (h : dictGet d j = .ok mb) : mb = lookupTitle d j := by
  cases j with
  | arr xs => exact Except.noConfusion h
  | obj kvs => exact Except.noConfusion h
  | null => exact (Except.ok.inj h).symm
  | bool b => exact (Except.ok.inj h).symm
  | num q => exact (Except.ok.inj h).symm
  | str s => exact (Except.ok.inj h).symm

theorem mkBookScoresGo_eq (lkp : List (String × Book)) (data : List Json)
    (h : ∀ e ∈ data, e.isObj = true)
    (hh : ∀ e ∈ data, titleHashable e = true) :
    mkBookScoresGo lkp data = .ok (matchedScores lkp data) := by
  induction data with
  | nil => rfl
  | cons e rest ih =>
    have hrest : ∀ x ∈ rest, x.isObj = true := fun x hx => h x (List.mem_cons_of_mem e hx)
    have hhrest : ∀ x ∈ rest, titleHashable x = true :=
      fun x hx => hh x (List.mem_cons_of_mem e hx)
    obtain ⟨kvs, rfl⟩ := (isObj_iff e).mp (h e (List.mem_cons_self e rest))
    have hhead : jsonHashable (objGetD kvs "title" (.str "")) = true :=
      hh (Json.obj kvs) (List.mem_cons_self _ rest)
    show (do
      let title ← jsonGet (Json.obj kvs) "title" (.str "")
      let book? ← dictGet lkp title
      match book? with
      | none => mkBookScoresGo lkp rest
      | some book => do
        let os ← jsonGet (Json.obj kvs) "overall_score" (.num 0)
        let gm ← jsonGet (Json.obj kvs) "genre_match" (.num 0)
        let tm ← jsonGet (Json.obj kvs) "theme_match" (.num 0)
        let asim ← jsonGet (Json.obj kvs) "author_similarity" (.num 0)
        let ns ← jsonGet (Json.obj kvs) "novelty_score" (.num 0)
        let rs ← jsonGet (Json.obj kvs) "reasoning" (.str "")
        let rc ← jsonGet (Json.obj kvs) "recommendation" (.str "maybe")
        let tail ← mkBookScoresGo lkp rest
        return BookScore.mk book os gm tm asim ns rs rc :: tail) =
      Except.ok (matchedScores lkp (Json.obj kvs :: rest))
    rw [show jsonGet (Json.obj kvs) "title" (.str "") =
      Except.ok (objGetD kvs "title" (.str "")) from rfl]
    show (do
      let book? ← dictGet lkp (objGetD kvs "title" (.str ""))
      match book? with
      | none => mkBookScoresGo lkp rest
      | some book => do
        let os ← jsonGet (Json.obj kvs) "overall_score" (.num 0)
        let gm ← jsonGet (Json.obj kvs) "genre_match" (.num 0)
        let tm ← jsonGet (Json.obj kvs) "theme_match" (.num 0)
        let asim ← jsonGet (Json.obj kvs) "author_similarity" (.num 0)
        let ns ← jsonGet (Json.obj kvs) "novelty_score" (.num 0)
        let rs ← jsonGet (Json.obj kvs) "reasoning" (.str "")
        let rc ← jsonGet (Json.obj kvs) "recommendation" (.str "maybe")
        let tail ← mkBookScoresGo lkp rest
        return BookScore.mk book os gm tm asim ns rs rc :: tail) =
      Except.ok (matchedScores lkp (Json.obj kvs :: rest))
    rw [dictGet_hashable lkp _ hhead]
    show (match lookupTitle lkp (objGetD kvs "title" (.str "")) with
      | none => mkBookScoresGo lkp rest
      | some book => do
        let os ← jsonGet (Json.obj kvs) "overall_score" (.num 0)
        let gm ← jsonGet (Json.obj kvs) "genre_match" (.num 0)
        let tm ← jsonGet (Json.obj kvs) "theme_match" (.num 0)
        let asim ← jsonGet (Json.obj kvs) "author_similarity" (.num 0)
        let ns ← jsonGet (Json.obj kvs) "novelty_score" (.num 0)
        let rs ← jsonGet (Json.obj kvs) "reasoning" (.str "")
        let rc ← jsonGet (Json.obj kvs) "recommendation" (.str "maybe")
        let tail ← mkBookScoresGo lkp rest
        return BookScore.mk book os gm tm asim ns rs rc :: tail) =
      Except.ok (matchedScores lkp (Json.obj kvs :: rest))
    cases hdg : lookupTitle lkp (objGetD kvs "title" (.str "")) with
    | none =>
      simp only [matchedScores, hdg]
      exact ih hrest hhrest
    | some book =>
      rw [ih hrest hhrest]
      simp only [matchedScores, hdg]
      rfl

theorem mkBookScoresGo_ok_inv (lkp : List (String × Book)) :
    ∀ (data : List Json) (built : List BookScore),
      mkBookScoresGo lkp data = .ok built → built = matchedScores lkp data := by
  intro data
  induction data with
  | nil =>
    intro built h
    cases h
    rfl
  | cons e rest ih =>
    intro built h
    cases e with
    | obj kvs =>
      replace h : (do
        let book? ← dictGet lkp (objGetD kvs "title" (.str ""))
        match book? with
        | none => mkBookScoresGo lkp rest
        | some book => do
          let tail ← mkBookScoresGo lkp rest
          return BookScore.mk book
            (objGetD kvs "overall_score" (.num 0))
            (objGetD kvs "genre_match" (.num 0))
            (objGetD kvs "theme_match" (.num 0))
            (objGetD kvs "author_similarity" (.num 0))
            (objGetD kvs "novelty_score" (.num 0))
            (objGetD kvs "reasoning" (.str ""))
            (objGetD kvs "recommendation" (.str "maybe")) :: tail) = .ok built := h
      cases hdg : dictGet lkp (objGetD kvs "title" (.str "")) with
      | error er => rw [hdg] at h; cases h
      | ok mb =>
        rw [hdg] at h
        have hmb := dictGet_ok_inv lkp _ mb hdg
        cases mb with
        | none =>
          have hlk : lookupTitle lkp (objGetD kvs "title" (.str "")) = none := hmb.symm
          simp only [matchedScores, hlk]
          exact ih built h
        | some book =>
          have hlk : lookupTitle lkp (objGetD kvs "title" (.str "")) = some book := hmb.symm
          cases htail : mkBookScoresGo lkp rest with
          | error er => rw [htail] at h; cases h
          | ok tail =>
            rw [htail] at h
            cases h
            simp only [matchedScores, hlk]
            rw [ih tail htail]
    | null => exact Except.noConfusion h
    | bool b => exact Except.noConfusion h
    | num q => exact Except.noConfusion h
    | str s => exact Except.noConfusion h
    | arr xs => exact Except.noConfusion h

theorem matchedScores_filter (lkp : List (String × Book)) (data : List Json)
    (h : ∀ e ∈ data, e.isObj = true) :
    matchedScores lkp data =
      matchedScores lkp (data.filter (fun e => (elemLookup lkp e).isSome)) := by
  induction data with
  | nil => rfl
  | cons e rest ih =>
    have hrest : ∀ x ∈ rest, x.isObj = true := fun x hx => h x (List.mem_cons_of_mem e hx)
    obtain ⟨kvs, rfl⟩ := (isObj_iff e).mp (h e (List.mem_cons_self e rest))
    cases hdg : lookupTitle lkp (objGetD kvs "title" (.str "")) with
    | none =>
      have hel : elemLookup lkp (Json.obj kvs) = none := hdg
      rw [List.filter_cons_of_neg (by simp [hel])]
      simp only [matchedScores, hdg]
      exact ih hrest
    | some book =>
      have hel : elemLookup lkp (Json.obj kvs) = some book := hdg
      rw [List.filter_cons_of_pos (by simp [hel])]
      simp only [matchedScores, hdg]
      rw [ih hrest]

theorem assocSet_mem (d : List (String × Book)) (k : String) (v : Book)
    (kv : String × Book) (h : kv ∈ assocSet d k v) : kv ∈ d ∨ kv = (k, v) := by
  unfold assocSet at h
  by_cases hany : d.any (fun kv => kv.1 == k) = true
  · rw [if_pos hany] at h
    rcases List.mem_map.mp h with ⟨kv₀, hkv₀, heq⟩
    by_cases hk : kv₀.1 = k
    · right
      rw [← heq]
      simp [hk]
    · left
      rw [← heq]
      simpa [hk] using hkv₀
  · rw [if_neg hany] at h
    rcases List.mem_append.mp h with h1 | h1
    · exact Or.inl h1
    · exact Or.inr (List.mem_singleton.mp h1)

theorem foldl_assocSet_mem (l : List Book) :
    ∀ (d : List (String × Book)) (kv : String × Book),
      kv ∈ l.foldl (fun d b => assocSet d b.title b) d →
      kv ∈ d ∨ (kv.2 ∈ l ∧ kv.1 = kv.2.title) := by
  induction l with
  | nil => exact fun d kv h => Or.inl h
  | cons b rest ih =>
    intro d kv h
    rcases ih (assocSet d b.title b) kv h with h1 | h1
    · rcases assocSet_mem d b.title b kv h1 with h2 | h2
      · exact Or.inl h2
      · refine Or.inr ⟨?_, ?_⟩
        · rw [h2]; exact List.mem_cons_self b rest
        · rw [h2]
    · exact Or.inr ⟨List.mem_cons_of_mem b h1.1, h1.2⟩

theorem mkLookup_entries (books : List Book) (kv : String × Book)
    (h : kv ∈ mkLookup books) : kv.1 = kv.2.title ∧ kv.2 ∈ books := by
  rcases foldl_assocSet_mem books [] kv h with h1 | h1
  · cases h1
  · exact ⟨h1.2, h1.1⟩

theorem lookupTitle_mem (books : List Book) (j : Json) (b : Book)
    (h : lookupTitle (mkLookup books) j = some b) : b ∈ books ∧ j = .str b.title := by
  cases j with
  | str s =>
    simp only [lookupTitle] at h
    cases hf : (mkLookup books).find? (fun kv => kv.1 == s) with
    | none => rw [hf] at h; cases h
    | some kv =>
      rw [hf] at h
      have hmem := List.mem_of_find?_eq_some hf
      have hpred := List.find?_some hf
      have hentry := mkLookup_entries books kv hmem
      have hb : kv.2 = b := by simpa using h
      have hks : kv.1 = s := by simpa using hpred
      refine ⟨hb ▸ hentry.2, ?_⟩
      rw [← hks, hentry.1, hb]
  | null => exact Option.noConfusion h
  | bool b' => exact Option.noConfusion h
  | num q => exact Option.noConfusion h
  | arr xs => exact Option.noConfusion h
  | obj kvs => exact Option.noConfusion h

theorem matchedScores_book_mem (books : List Book) (data : List Json)
    (s : BookScore) (h : s ∈ matchedScores (mkLookup books) data) :
    s.book ∈ books := by
  induction data with
  | nil => cases h
  | cons e rest ih =>
    cases e with
    | obj kvs =>
      cases hdg : lookupTitle (mkLookup books) (objGetD kvs "title" (.str "")) with
      | none =>
        simp only [matchedScores, hdg] at h
        exact ih h
      | some book =>
        simp only [matchedScores, hdg] at h
        rcases List.mem_cons.mp h with rfl | h1
        · exact (lookupTitle_mem books _ book hdg).1
        · exact ih h1
    | null => simp only [matchedScores] at h; exact ih h
    | bool b' => simp only [matchedScores] at h; exact ih h
    | num q => simp only [matchedScores] at h; exact ih h
    | str s' => simp only [matchedScores] at h; exact ih h
    | arr xs => simp only [matchedScores] at h; exact ih h

theorem matchedScores_length (lkp : List (String × Book)) (data : List Json)
    (h : ∀ e ∈ data, e.isObj = true) :
    (matchedScores lkp data).length =
      data.countP (fun e => (elemLookup lkp e).isSome) := by
  induction data with
  | nil => rfl
  | cons e rest ih =>
    have hrest : ∀ x ∈ rest, x.isObj = true := fun x hx => h x (List.mem_cons_of_mem e hx)
    obtain ⟨kvs, rfl⟩ := (isObj_iff e).mp (h e (List.mem_cons_self e rest))
    cases hdg : lookupTitle lkp (objGetD kvs "title" (.str "")) with
    | none =>
      have hel : elemLookup lkp (Json.obj kvs) = none := hdg
      simp only [matchedScores, hdg, List.countP_cons, hel, Option.isSome_none]
      simpa using ih hrest
    | some book =>
      have hel : elemLookup lkp (Json.obj kvs) = some book := hdg
      simp only [matchedScores, hdg, List.countP_cons, hel, Option.isSome_some,
        List.length_cons]
      rw [ih hrest]
      simp

theorem matchedScores_countP (lkp : List (String × Book)) (data : List Json)
    (h : ∀ e ∈ data, e.isObj = true) (b : Book) :
    (matchedScores lkp data).countP (fun s => decide (s.book = b)) =
      data.countP (fun e => decide (elemLookup lkp e = some b)) := by
  induction data with
  | nil => rfl
  | cons e rest ih =>
    have hrest : ∀ x ∈ rest, x.isObj = true := fun x hx => h x (List.mem_cons_of_mem e hx)
    obtain ⟨kvs, rfl⟩ := (isObj_iff e).mp (h e (List.mem_cons_self e rest))
    cases hdg : lookupTitle lkp (objGetD kvs "title" (.str "")) with
    | none =>
      have hel : elemLookup lkp (Json.obj kvs) = none := hdg
      simp only [matchedScores, hdg, List.countP_cons, hel]
      rw [ih hrest]
      simp
    | some book =>
      have hel : elemLookup lkp (Json.obj kvs) = some book := hdg
      simp only [matchedScores, hdg, List.countP_cons, hel]
      rw [ih hrest]
      by_cases hbb : book = b
      · simp [hbb]
      · simp [hbb, Option.some_inj]

theorem insertScore_perm (x : BookScore) :
    ∀ (l r : List BookScore), insertScore x l = .ok r → r.Perm (x :: l) := by
  intro l
  induction l with
  | nil =>
    intro r h
    cases h
    exact List.Perm.refl _
  | cons y ys ih =>
    intro r h
    unfold insertScore at h
    cases hlt : jsonLt x.overall_score y.overall_score with
    | none => rw [hlt] at h; cases h
    | some bv =>
      rw [hlt] at h
      cases bv with
      | true =>
        cases htail : insertScore x ys with
        | error e => rw [htail] at h; cases h
        | ok tail =>
          rw [htail] at h
          cases h
          exact (List.Perm.cons y (ih tail htail)).trans (List.Perm.swap x y ys)
      | false =>
        cases h
        exact List.Perm.refl _

theorem sortScores_perm :
    ∀ (l out : List BookScore), sortScores l = .ok out → out.Perm l := by
  intro l
  induction l with
  | nil =>
    intro out h
    cases h
    exact List.Perm.refl _
  | cons x xs ih =>
    intro out h
    unfold sortScores at h
    cases hs : sortScores xs with
    | error e => rw [hs] at h; cases h
    | ok s =>
      rw [hs] at h
      exact (insertScore_perm x s out h).trans (List.Perm.cons x (ih s hs))

theorem insertScore_allNum (x : BookScore) (l : List BookScore)
    (hx : x.overall_score.isNum = true) (hl : ∀ s ∈ l, s.overall_score.isNum = true) :
    insertScore x l = .ok (insertDescBy scoreKey x l) := by
  induction l with
  | nil => rfl
  | cons y ys ih =>
    obtain ⟨a, hxa⟩ := (isNum_iff _).mp hx
    obtain ⟨b, hyb⟩ := (isNum_iff _).mp (hl y (List.mem_cons_self y ys))
    have hys : ∀ s ∈ ys, s.overall_score.isNum = true :=
      fun s hs => hl s (List.mem_cons_of_mem y hs)
    simp only [insertScore, insertDescBy, jsonLt, scoreKey, scoreQ, hxa, hyb]
    by_cases hab : a < b
    · simp only [hab, decide_True, if_pos hab]
      rw [ih hys]
      rfl
    · simp only [hab, decide_False, if_neg hab]
      simp

theorem sortScores_allNum (l : List BookScore)
    (hl : ∀ s ∈ l, s.overall_score.isNum = true) :
    sortScores l = .ok (sortDescBy scoreKey l) := by
  induction l with
  | nil => rfl
  | cons x xs ih =>
    have hxs : ∀ s ∈ xs, s.overall_score.isNum = true :=
      fun s hs => hl s (List.mem_cons_of_mem x hs)
    show Except.bind (sortScores xs) (insertScore x) = _
    rw [ih hxs]
    exact insertScore_allNum x _ (hl x (List.mem_cons_self x xs))
      (fun s hs => hxs s ((sortDescBy_perm scoreKey xs).mem_iff.mp hs))

/-- Claim C2, counterexample.  With a non-empty reading history, a backend
`GenerationError` during taste-profile construction propagates to the
caller instead of producing the deterministic basic-profile fallback: the
backend call sits outside the `try`/`except` in both source files. -/
theorem C2_counterexample :
    (analyze_reading_taste read3 (.error ⟨"network unreachable"⟩)).1 =
      .error (.genError ⟨"network unreachable"⟩)
    ∧ (analyze_reading_taste read3 (.error ⟨"network unreachable"⟩)).1 ≠
        .ok (create_basic_profile read3) := by
  refine ⟨rfl, ?_⟩
  intro h
  have h1 : (analyze_reading_taste read3 (.error ⟨"network unreachable"⟩)).1 =
      .error (.genError ⟨"network unreachable"⟩) := rfl
  rw [h1] at h
  exact Except.noConfusion h

/-- Claim C2 (amended): for every non-empty `read_books`, a
`GenerationError` from the backend propagates out of the profile builder,
while a `ParseFailure` of the response text routes to the deterministic
basic-profile fallback — the two failure kinds are handled differently. -/
theorem C2_generation_error_amended (read_books : List Book) (e : GenError)
    (content : String) (pf : ParseFailure) (hne : read_books ≠ []) :
    (analyze_reading_taste read_books (.error e)).1 = .error (.genError e)
    ∧ (extractApp2 .object content = .error pf →
        analyze_reading_taste read_books (.ok content) =
          (.ok (create_basic_profile read_books), 1)) := by
  have hE : read_books.isEmpty = false := by
    cases read_books with
    | nil => exact absurd rfl hne
    | cons b bs => rfl
  constructor
  · simp [analyze_reading_taste, hE]
  · intro hpf
    simp [analyze_reading_taste, hE, hpf]

/-- Claim C2, witness: the amended theorem at concrete inputs. -/
theorem C2_witness :
    (analyze_reading_taste read3 (.error ⟨"rate limited"⟩)).1 =
      .error (.genError ⟨"rate limited"⟩)
    ∧ analyze_reading_taste read3 (.ok "not json at all") =
        (.ok (create_basic_profile read3), 1) :=
  ⟨(C2_generation_error_amended read3 ⟨"rate limited"⟩ "not json at all"
      ⟨"not json at all"⟩ (fun h => List.noConfusion h)).1,
   (C2_generation_error_amended read3 ⟨"rate limited"⟩ "not json at all"
      ⟨"not json at all"⟩ (fun h => List.noConfusion h)).2 rfl⟩

/-- Claim C3, counterexample.  A backend `GenerationError` during scoring
propagates out of `score_unread_books` — and out of `get_recommendations` —
instead of yielding the empty sequence: only a `ParseFailure` yields `[]`. -/
theorem C3_counterexample :
    (score_unread_books sentinelProfile unread3 (.error ⟨"backend down"⟩)).1 =
      .error (.genError ⟨"backend down"⟩)
    ∧ (score_unread_books sentinelProfile unread3 (.error ⟨"backend down"⟩)).1 ≠ .ok []
    ∧ (get_recommendations read3 unread3 none
        (.ok "not json at all") (.error ⟨"backend down"⟩)).1 =
      .error (.genError ⟨"backend down"⟩) := by
  refine ⟨rfl, ?_, rfl⟩
  intro h
  have h1 : (score_unread_books sentinelProfile unread3 (.error ⟨"backend down"⟩)).1 =
      .error (.genError ⟨"backend down"⟩) := rfl
  rw [h1] at h
  exact Except.noConfusion h

/-- Claim C3 (amended): for every profile and non-empty `unread_books`, a
`ParseFailure` of the scoring response yields the empty sequence with no
error, but a backend `GenerationError` propagates out of
`score_unread_books` and hence out of `get_recommendations`. -/
theorem C3_scoring_failure_amended (taste_profile : TasteProfile)
    (unread_books : List Book) (e : GenError) (content : String)
    (pf : ParseFailure) (hne : unread_books ≠ []) :
    (extractApp2 .array content = .error pf →
      score_unread_books taste_profile unread_books (.ok content) = (.ok [], 1))
    ∧ (score_unread_books taste_profile unread_books (.error e)).1 =
        .error (.genError e)
    ∧ (∀ (read_books : List Book) (r1 : Except GenError String)
          (p : TasteProfile) (n1 : Nat),
        analyze_reading_taste read_books r1 = (.ok p, n1) →
        (get_recommendations read_books unread_books none r1 (.error e)).1 =
          .error (.genError e)) := by
  have hE : unread_books.isEmpty = false := by
    cases unread_books with
    | nil => exact absurd rfl hne
    | cons b bs => rfl
  refine ⟨?_, ?_, ?_⟩
  · intro hpf
    simp [score_unread_books, hE, hpf]
  · simp [score_unread_books, hE]
  · intro read_books r1 p n1 ha
    simp [get_recommendations, ha, score_unread_books, hE]

/-- Claim C3, witness: the amended theorem at concrete inputs. -/
theorem C3_witness :
    score_unread_books sentinelProfile unread3 (.ok "not json at all") = (.ok [], 1)
    ∧ (score_unread_books sentinelProfile unread3 (.error ⟨"quota"⟩)).1 =
        .error (.genError ⟨"quota"⟩)
    ∧ (get_recommendations read3 unread3 none (.ok "not json at all")
        (.error ⟨"quota"⟩)).1 = .error (.genError ⟨"quota"⟩) :=
  ⟨(C3_scoring_failure_amended sentinelProfile unread3 ⟨"quota"⟩ "not json at all"
      ⟨"not json at all"⟩ (fun h => List.noConfusion h)).1 rfl,
   (C3_scoring_failure_amended sentinelProfile unread3 ⟨"quota"⟩ "not json at all"
      ⟨"not json at all"⟩ (fun h => List.noConfusion h)).2.1,
   (C3_scoring_failure_amended sentinelProfile unread3 ⟨"quota"⟩ "not json at all"
      ⟨"not json at all"⟩ (fun h => List.noConfusion h)).2.2 read3
      (.ok "not json at all") (create_basic_profile read3) 1 rfl⟩

theorem foldl_counterUpdate_eq (f : Book → List String) (books : List Book) :
    ∀ c : Counter,
      books.foldl (fun c b => counterUpdate c (f b)) c =
        (books.flatMap f).foldl counterIncr c := by
  induction books with
  | nil => intro c; rfl
  | cons b rest ih =>
    intro c
    rw [List.foldl_cons, List.flatMap_cons, List.foldl_append]
    exact ih _

theorem buildCounter_keys_perm (l : List String) :
    ((l.foldl counterIncr []).map Prod.fst).Perm l.dedup := by
  rw [List.perm_ext_iff_of_nodup (foldl_counterIncr_nodup l [] (by simp))
    (List.nodup_dedup l)]
  intro a
  rw [List.mem_dedup, foldl_counterIncr_mem]
  simp

theorem buildCounter_length (l : List String) :
    (l.foldl counterIncr []).length = l.dedup.length := by
  calc (l.foldl counterIncr []).length
      = ((l.foldl counterIncr []).map Prod.fst).length := (List.length_map _ _).symm
    _ = l.dedup.length := (buildCounter_keys_perm l).length_eq

theorem buildCounter_sum (l : List String) :
    sumCounts (l.foldl counterIncr []) = l.length := by
  have := foldl_counterIncr_sum l [] (by simp)
  simpa [sumCounts] using this

theorem mkRat_natCast_div (a b : Nat) : mkRat (a : Int) b = (a : ℚ) / (b : ℚ) := by
  rw [Rat.mkRat_eq_div]
  norm_num

theorem counterTop5_spec (l : List String) :
    ∃ all : List (String × Nat),
      (all.map Prod.fst).Perm l.dedup
      ∧ (∀ kc ∈ all, kc.2 = l.count kc.1)
      ∧ all.Pairwise (fun a b => b.2 ≤ a.2)
      ∧ mostCommon 5 (l.foldl counterIncr []) = all.take 5 := by
  refine ⟨sortDescBy Prod.snd (l.foldl counterIncr []), ?_, ?_, ?_, rfl⟩
  · exact ((sortDescBy_perm (Prod.snd) (l.foldl counterIncr [])).map Prod.fst).trans
      (buildCounter_keys_perm l)
  · intro kc hkc
    have hmem := (sortDescBy_perm (Prod.snd) _).mem_iff.mp hkc
    have hval := mem_count_eq _ (foldl_counterIncr_nodup l [] (by simp)) kc hmem
    rw [hval, foldl_counterIncr_countOf]
    simp [countOf]
  · exact sortDescBy_pairwise _ _

/-- Claim C4: the deterministic fallback profile computes exactly the
claimed aggregates — `reading_level` is `"mixed"`, `diversity_score` is
(number of distinct genres)/(number of books read), and the three mappings
hold the top-5 keys by occurrence count (a maximal descending prefix of the
full count table), genres weighted by count divided by the total number of
genre occurrences, authors and themes carrying their raw counts. -/
theorem C4_basic_profile (read_books : List Book) (hne : read_books ≠ []) :
    (create_basic_profile read_books).reading_level = .str "mixed"
    ∧ (create_basic_profile read_books).diversity_score =
        .num (((read_books.flatMap (fun b => b.genres)).dedup.length : ℚ) /
          (read_books.length : ℚ))
    ∧ (∃ allG : List (String × Nat),
        (allG.map Prod.fst).Perm (read_books.flatMap (fun b => b.genres)).dedup
        ∧ (∀ gc ∈ allG, gc.2 = (read_books.flatMap (fun b => b.genres)).count gc.1)
        ∧ allG.Pairwise (fun a b => b.2 ≤ a.2)
        ∧ (create_basic_profile read_books).favorite_genres =
            .obj ((allG.take 5).map (fun gc =>
              (gc.1, Json.num ((gc.2 : ℚ) /
                ((read_books.flatMap (fun b => b.genres)).length : ℚ))))))
    ∧ (∃ allA : List (String × Nat),
        (allA.map Prod.fst).Perm (read_books.map (fun b => b.author)).dedup
        ∧ (∀ ac ∈ allA, ac.2 = (read_books.map (fun b => b.author)).count ac.1)
        ∧ allA.Pairwise (fun a b => b.2 ≤ a.2)
        ∧ (create_basic_profile read_books).favorite_authors =
            .obj ((allA.take 5).map (fun ac => (ac.1, Json.num (ac.2 : ℚ)))))
    ∧ (∃ allT : List (String × Nat),
        (allT.map Prod.fst).Perm (read_books.flatMap (fun b => b.themes)).dedup
        ∧ (∀ tc ∈ allT, tc.2 = (read_books.flatMap (fun b => b.themes)).count tc.1)
        ∧ allT.Pairwise (fun a b => b.2 ≤ a.2)
        ∧ (create_basic_profile read_books).common_themes =
            .obj ((allT.take 5).map (fun tc => (tc.1, Json.num (tc.2 : ℚ))))) := by
  have hE : read_books.isEmpty = false := by
    cases read_books with
    | nil => exact absurd rfl hne
    | cons b bs => rfl
  have hG := foldl_counterUpdate_eq (fun b => b.genres) read_books []
  have hT := foldl_counterUpdate_eq (fun b => b.themes) read_books []
  have hA : read_books.foldl (fun c b => counterIncr c b.author) ([] : Counter) =
      (read_books.map (fun b => b.author)).foldl counterIncr [] :=
    (List.foldl_map _ _ _ _).symm
  obtain ⟨allG, hGperm, hGcount, hGsort, hGtop⟩ :=
    counterTop5_spec (read_books.flatMap (fun b => b.genres))
  obtain ⟨allA, hAperm, hAcount, hAsort, hAtop⟩ :=
    counterTop5_spec (read_books.map (fun b => b.author))
  obtain ⟨allT, hTperm, hTcount, hTsort, hTtop⟩ :=
    counterTop5_spec (read_books.flatMap (fun b => b.themes))
  refine ⟨rfl, ?_, ⟨allG, hGperm, hGcount, hGsort, ?_⟩,
    ⟨allA, hAperm, hAcount, hAsort, ?_⟩, ⟨allT, hTperm, hTcount, hTsort, ?_⟩⟩
  · -- diversity_score
    simp only [create_basic_profile, hE, Bool.false_eq_true, if_false, hG]
    rw [buildCounter_length, mkRat_natCast_div]
  · -- favorite_genres
    simp only [create_basic_profile, hG, hGtop, List.map_map]
    congr 1
    apply List.map_congr_left
    intro gc hgc
    have hmemall : gc ∈ allG := List.mem_of_mem_take hgc
    have hkey : gc.1 ∈ allG.map Prod.fst := List.mem_map.mpr ⟨gc, hmemall, rfl⟩
    have hflat : gc.1 ∈ read_books.flatMap (fun b => b.genres) :=
      List.mem_dedup.mp (hGperm.mem_iff.mp hkey)
    have hflat_ne : (read_books.flatMap (fun b => b.genres)).length ≠ 0 :=
      fun hzero => by
        rw [List.length_eq_zero] at hzero
        rw [hzero] at hflat
        cases hflat
    simp only [Function.comp]
    rw [buildCounter_sum, if_neg hflat_ne, mkRat_natCast_div]
  · -- favorite_authors
    simp only [create_basic_profile, hA, hAtop]
  · -- common_themes
    simp only [create_basic_profile, hT, hTtop]

/-- Claim C4, witness: the example from the claim — three books whose genre
lists are `[["Dystopian","Political Fiction"],["Dystopian"],["Dystopian"]]`
give Dystopian weight 3/4, Political Fiction weight 1/4, and
diversity 2/3. -/
theorem C4_witness :
    (create_basic_profile read3).reading_level = .str "mixed"
    ∧ (create_basic_profile read3).diversity_score =
        .num (((read3.flatMap (fun b => b.genres)).dedup.length : ℚ) / (read3.length : ℚ))
    ∧ (create_basic_profile read3).favorite_genres =
        .obj [("Dystopian", .num (mkRat 3 4)), ("Political Fiction", .num (mkRat 1 4))]
    ∧ (create_basic_profile read3).diversity_score = .num (mkRat 2 3) := by
  have h := C4_basic_profile read3 (fun h => List.noConfusion h)
  exact ⟨h.1, h.2.1, rfl, rfl⟩

theorem lookupTitle_nil (j : Json) : lookupTitle [] j = none := by
  cases j <;> rfl

theorem matchedScores_nil (data : List Json) : matchedScores [] data = [] := by
  induction data with
  | nil => rfl
  | cons e rest ih => cases e <;> simp [matchedScores, lookupTitle_nil, ih]

theorem score_ok_inv (taste_profile : TasteProfile) (unread_books : List Book)
    (content : String) (data : List Json) (out : List BookScore)
    (hE : unread_books.isEmpty = false)
    (hext : extractApp2 .array content = .ok (.arr data))
    (hobj : data.all (fun e => e.isObj) = true)
    (hout : (score_unread_books taste_profile unread_books (.ok content)).1 = .ok out) :
    sortScores (matchedScores (mkLookup unread_books) data) = .ok out := by
  simp only [score_unread_books, hE, Bool.false_eq_true, if_false, hext] at hout
  cases hmk : mkBookScores data unread_books with
  | error er =>
    have hpost : scorePostParse (.arr data) unread_books = .error er := by
      show (match mkBookScores data unread_books with
        | .error e => Except.error e
        | .ok book_scores => sortScores book_scores) = Except.error er
      rw [hmk]
    rw [hpost] at hout
    cases hout
  | ok built =>
    have hbuilt : built = matchedScores (mkLookup unread_books) data :=
      mkBookScoresGo_ok_inv (mkLookup unread_books) data built hmk
    have hpost : scorePostParse (.arr data) unread_books =
        sortScores (matchedScores (mkLookup unread_books) data) := by
      show (match mkBookScores data unread_books with
        | .error e => Except.error e
        | .ok book_scores => sortScores book_scores) =
        sortScores (matchedScores (mkLookup unread_books) data)
      rw [hmk, hbuilt]
    rw [hpost] at hout
    cases hss : sortScores (matchedScores (mkLookup unread_books) data) with
    | error e => rw [hss] at hout; cases hout
    | ok l =>
      rw [hss] at hout
      simp only [Except.ok.injEq] at hout
      rw [hout]

/-- Claim C5: with a successfully parsed scoring response consisting of
objects with numeric `overall_score`s, the sequence returned by
`score_unread_books` is sorted descending by `overall_score`, and entries
with equal scores keep the relative order of the parsed response (the order
of the matched-score list built from it). -/
theorem C5_sorted_stable (taste_profile : TasteProfile) (unread_books : List Book)
    (content : String) (data : List Json) (out : List BookScore)
    (hext : extractApp2 .array content = .ok (.arr data))
    (hobj : data.all (fun e => e.isObj) = true)
    (hnum : (matchedScores (mkLookup unread_books) data).all
      (fun s => s.overall_score.isNum) = true)
    (hout : (score_unread_books taste_profile unread_books (.ok content)).1 = .ok out) :
    out.Pairwise (fun a b => scoreKey b ≤ scoreKey a)
    ∧ ∀ q : ℚ, out.filter (fun s => decide (scoreKey s = q)) =
        (matchedScores (mkLookup unread_books) data).filter
          (fun s => decide (scoreKey s = q)) := by
  cases hE : unread_books.isEmpty with
  | true =>
    have hempty : unread_books = [] := List.isEmpty_iff.mp hE
    subst hempty
    have hout' : out = [] := by
      simp only [score_unread_books] at hout
      exact (Except.ok.inj hout).symm
    subst hout'
    constructor
    · exact List.Pairwise.nil
    · intro q
      rw [show mkLookup [] = [] from rfl, matchedScores_nil]
  | false =>
    have hinv := score_ok_inv taste_profile unread_books content data out hE hext hobj hout
    rw [sortScores_allNum _ (List.all_eq_true.mp hnum)] at hinv
    have hout' : out = sortDescBy scoreKey (matchedScores (mkLookup unread_books) data) :=
      (Except.ok.inj hinv).symm
    subst hout'
    constructor
    · exact sortDescBy_pairwise scoreKey _
    · intro q
      exact sortDescBy_filter scoreKey _ q

/-- Claim C5, witness: response scores 40, 95, 70 for books A, B, C yield
the output order B, C, A. -/
theorem C5_witness :
    outABC.Pairwise (fun a b => scoreKey b ≤ scoreKey a)
    ∧ (∀ q : ℚ, outABC.filter (fun s => decide (scoreKey s = q)) =
        (matchedScores (mkLookup unread3) dataABC).filter
          (fun s => decide (scoreKey s = q)))
    ∧ outABC.map (fun s => s.book.title) = ["B", "C", "A"] := by
  have h := C5_sorted_stable sentinelProfile unread3 contentABC dataABC outABC
    rfl rfl rfl rfl
  exact ⟨h.1, h.2, rfl⟩

/-- Claim C6, counterexample.  A parsed scoring response array may raise
instead of dropping: on `[1]` the non-object element makes
`score.get("title", "")` raise an `AttributeError`, and on an all-object
array whose title is a list, `[{"title": [], "overall_score": 1}]`,
`book_lookup.get` raises a `TypeError` (unhashable dict key).  Neither is
caught by any handler, so an error propagates out of
`score_unread_books`, contradicting the claim's universally quantified
"silently dropped ... without any error being raised". -/
theorem C6_counterexample :
    (score_unread_books sentinelProfile unread3 (.ok "[1]")).1 = .error .attributeError
    ∧ (score_unread_books sentinelProfile unread3 (.ok "[1]")).1 ≠ .ok []
    ∧ (score_unread_books sentinelProfile unread3
        (.ok "[\x7b\"title\": [], \"overall_score\": 1\x7d]")).1 = .error .typeError
    ∧ (score_unread_books sentinelProfile unread3
        (.ok "[\x7b\"title\": [], \"overall_score\": 1\x7d]")).1 ≠ .ok [] := by
  refine ⟨rfl, ?_, rfl, ?_⟩
  · intro h
    have h1 : (score_unread_books sentinelProfile unread3 (.ok "[1]")).1 =
        .error .attributeError := rfl
    rw [h1] at h
    exact Except.noConfusion h
  · intro h
    have h2 : (score_unread_books sentinelProfile unread3
        (.ok "[\x7b\"title\": [], \"overall_score\": 1\x7d]")).1 =
        .error .typeError := rfl
    rw [h2] at h
    exact Except.noConfusion h

/-- Claim C6 (amended): for scoring response arrays whose elements are all
JSON objects with hashable title values (not a list or object), each
element is matched by exact title-string equality through the title→Book
dict built from `unread_books` (only a string title can match), elements
whose title matches no book are silently dropped (the matching loop raises
no error and removing the unmatched elements leaves its output unchanged),
every kept entry wraps a book of `unread_books`, and the loop output has
exactly one entry per matched element.  A non-object element instead
raises an uncaught `AttributeError`, and an object element whose title is
a list or object raises an uncaught `TypeError` (unhashable dict key). -/
theorem C6_title_matching_amended (unread_books : List Book) (data : List Json)
    (hobj : data.all (fun e => e.isObj) = true)
    (hhash : data.all (fun e => titleHashable e) = true) :
    mkBookScores data unread_books = .ok (matchedScores (mkLookup unread_books) data)
    ∧ matchedScores (mkLookup unread_books) data =
        matchedScores (mkLookup unread_books)
          (data.filter (fun e => (elemLookup (mkLookup unread_books) e).isSome))
    ∧ (∀ s ∈ matchedScores (mkLookup unread_books) data, s.book ∈ unread_books)
    ∧ (matchedScores (mkLookup unread_books) data).length =
        data.countP (fun e => (elemLookup (mkLookup unread_books) e).isSome)
    ∧ (∀ (kvs : List (String × Json)) (rest : List Json),
        jsonHashable (objGetD kvs "title" (.str "")) = false →
        mkBookScoresGo (mkLookup unread_books) (.obj kvs :: rest) =
          .error .typeError) := by
  refine ⟨mkBookScoresGo_eq _ _ (List.all_eq_true.mp hobj) (List.all_eq_true.mp hhash),
    matchedScores_filter _ _ (List.all_eq_true.mp hobj),
    fun s hs => matchedScores_book_mem _ _ s hs,
    matchedScores_length _ _ (List.all_eq_true.mp hobj),
    ?_⟩
  intro kvs rest hunh
  have herr : dictGet (mkLookup unread_books) (objGetD kvs "title" (.str "")) =
      .error .typeError := by
    cases ht : objGetD kvs "title" (.str "") with
    | arr xs => rfl
    | obj kvs₁ => rfl
    | null => rw [ht] at hunh; exact Bool.noConfusion hunh
    | bool b => rw [ht] at hunh; exact Bool.noConfusion hunh
    | num q => rw [ht] at hunh; exact Bool.noConfusion hunh
    | str s => rw [ht] at hunh; exact Bool.noConfusion hunh
  show (do
    let book? ← dictGet (mkLookup unread_books) (objGetD kvs "title" (.str ""))
    match book? with
    | none => mkBookScoresGo (mkLookup unread_books) rest
    | some book => do
      let tail ← mkBookScoresGo (mkLookup unread_books) rest
      return BookScore.mk book
        (objGetD kvs "overall_score" (.num 0))
        (objGetD kvs "genre_match" (.num 0))
        (objGetD kvs "theme_match" (.num 0))
        (objGetD kvs "author_similarity" (.num 0))
        (objGetD kvs "novelty_score" (.num 0))
        (objGetD kvs "reasoning" (.str ""))
        (objGetD kvs "recommendation" (.str "maybe")) :: tail) =
    Except.error PyErr.typeError
  rw [herr]
  rfl

/-- Claim C6, witness: a response with one real title, one hallucinated
title and one numeric (hashable, never-matching) title keeps exactly the
real one and raises nothing; a list-valued title raises `TypeError`. -/
theorem C6_witness :
    mkBookScores dataGhost unread3 = .ok (matchedScores (mkLookup unread3) dataGhost)
    ∧ (∀ s ∈ matchedScores (mkLookup unread3) dataGhost, s.book ∈ unread3)
    ∧ (matchedScores (mkLookup unread3) dataGhost).length = 1
    ∧ mkBookScoresGo (mkLookup unread3) [.obj [("title", .arr [])]] =
        .error .typeError := by
  have h := C6_title_matching_amended unread3 dataGhost rfl rfl
  exact ⟨h.1, h.2.2.1, rfl, h.2.2.2.2 [("title", .arr [])] [] rfl⟩

/-- Claim C7: with an empty reading history the profile builder returns
the sentinel profile — all four mappings empty, reading level "unknown",
diversity 0, summary "No books read yet." — and performs zero backend
calls, whatever the backend would have replied. -/
theorem C7_empty_read_books (resp : Except GenError String) :
    analyze_reading_taste [] resp =
      (.ok (TasteProfile.mk (.obj []) (.obj []) (.obj []) (.obj [])
        (.str "unknown") (.num 0) (.str "No books read yet.")), 0) := rfl

/-- Claim C7, witness. -/
theorem C7_witness :
    analyze_reading_taste [] (.ok "whatever the model says") =
      (.ok (TasteProfile.mk (.obj []) (.obj []) (.obj []) (.obj [])
        (.str "unknown") (.num 0) (.str "No books read yet.")), 0) :=
  C7_empty_read_books (.ok "whatever the model says")

/-- Claim C8: with an empty unread batch the scorer returns the empty
sequence immediately and performs zero backend calls, for every profile
and whatever the backend would have replied. -/
theorem C8_empty_unread_books (taste_profile : TasteProfile)
    (resp : Except GenError String) :
    score_unread_books taste_profile [] resp = (.ok [], 0) := rfl

/-- Claim C8, witness. -/
theorem C8_witness :
    score_unread_books sentinelProfile [] (.error ⟨"backend down"⟩) = (.ok [], 0) :=
  C8_empty_unread_books sentinelProfile (.error ⟨"backend down"⟩)

theorem pySliceTo_natCast (l : List α) (k : Nat) : pySliceTo l (k : Int) = l.take k := by
  unfold pySliceTo
  rw [if_neg (by omega)]
  simp

/-- Claim C9: `get_recommendations` composes profile building with scoring
and truncates the scored sequence — `top_n = none` keeps every scored
book, `top_n = k ≥ 0` keeps exactly the first `k` (Python `[:k]` is
`take k`), with the profile passed through unchanged. -/
theorem C9_compose_truncate (read_books unread_books : List Book)
    (top_n : Option Int) (r1 r2 : Except GenError String) (p : TasteProfile)
    (scored : List BookScore) (n1 n2 : Nat)
    (h1 : analyze_reading_taste read_books r1 = (.ok p, n1))
    (h2 : score_unread_books p unread_books r2 = (.ok scored, n2)) :
    (top_n = none →
      get_recommendations read_books unread_books top_n r1 r2 =
        (.ok (p, scored), n1 + n2))
    ∧ ∀ k : Nat, top_n = some (k : Int) →
        get_recommendations read_books unread_books top_n r1 r2 =
          (.ok (p, scored.take k), n1 + n2) := by
  constructor
  · intro hn
    subst hn
    simp [get_recommendations, h1, h2]
  · intro k hn
    subst hn
    simp [get_recommendations, h1, h2, pySliceTo_natCast]

/-- Claim C9, witness: five successfully scored books; `top_n = 2` keeps
the top two by overall score, `top_n = none` keeps all five. -/
theorem C9_witness :
    get_recommendations read3 unread5 (some 2) (.ok "nj") (.ok content5) =
      (.ok (create_basic_profile read3, scored5.take 2), 2)
    ∧ get_recommendations read3 unread5 none (.ok "nj") (.ok content5) =
        (.ok (create_basic_profile read3, scored5), 2)
    ∧ scored5.length = 5
    ∧ scored5.map (fun s => s.book.title) = ["U2", "U3", "U5", "U1", "U4"] := by
  have h2 := (C9_compose_truncate read3 unread5 (some 2) (.ok "nj") (.ok content5)
    (create_basic_profile read3) scored5 1 1 rfl rfl).2 2 rfl
  have h0 := (C9_compose_truncate read3 unread5 none (.ok "nj") (.ok content5)
    (create_basic_profile read3) scored5 1 1 rfl rfl).1 rfl
  exact ⟨h2, h0, rfl, rfl⟩

/-- Claim C10: duplicate response entries are not deduplicated — when the
parsed array's elements are objects and a title resolves to book `b`, the
output carries exactly as many entries wrapping `b` as the array has
elements bearing that title, so the output can be longer than
`unread_books`. -/
theorem C10_duplicate_entries (taste_profile : TasteProfile)
    (unread_books : List Book) (content : String) (data : List Json)
    (out : List BookScore) (b : Book)
    (hext : extractApp2 .array content = .ok (.arr data))
    (hobj : data.all (fun e => e.isObj) = true)
    (hout : (score_unread_books taste_profile unread_books (.ok content)).1 = .ok out)
    (hb : lookupTitle (mkLookup unread_books) (.str b.title) = some b) :
    out.countP (fun s => decide (s.book = b)) = data.countP (titleIs b.title) := by
  have hE : unread_books.isEmpty = false := by
    cases unread_books with
    | nil =>
      rw [show mkLookup ([] : List Book) = [] from rfl, lookupTitle_nil] at hb
      exact Option.noConfusion hb
    | cons b' bs => rfl
  have hinv := score_ok_inv taste_profile unread_books content data out hE hext hobj hout
  have hperm := sortScores_perm _ out hinv
  rw [List.Perm.countP_eq _ hperm,
    matchedScores_countP _ _ (List.all_eq_true.mp hobj) b]
  have hiff : ∀ e, elemLookup (mkLookup unread_books) e = some b ↔
      titleIs b.title e = true := by
    intro e
    constructor
    · intro hel
      have ht := (lookupTitle_mem unread_books (titleJson e) b hel).2
      unfold titleIs
      rw [ht]
      simp
    · intro hti
      unfold titleIs at hti
      cases hj : titleJson e with
      | str s =>
        rw [hj] at hti
        simp at hti
        subst hti
        show lookupTitle (mkLookup unread_books) (titleJson e) = some b
        rw [hj]
        exact hb
      | null => rw [hj] at hti; cases hti
      | bool b' => rw [hj] at hti; cases hti
      | num q => rw [hj] at hti; cases hti
      | arr xs => rw [hj] at hti; cases hti
      | obj kvs => rw [hj] at hti; cases hti
  apply List.countP_congr
  intro e he
  by_cases hel : elemLookup (mkLookup unread_books) e = some b
  · rw [decide_eq_true hel, ((hiff e).mp hel).symm]
  · rw [decide_eq_false hel]
    cases hti : titleIs b.title e with
    | false => rfl
    | true => exact absurd ((hiff e).mpr hti) hel

/-- Claim C10, witness: one unread book, a response naming its title twice
— the output has two entries wrapping that same book, more entries than
the batch has books. -/
theorem C10_witness :
    outDup.countP (fun s => decide (s.book = bookA)) =
      dataDup.countP (titleIs bookA.title)
    ∧ outDup.length = 2
    ∧ unread1.length = 1
    ∧ unread1.length < outDup.length := by
  refine ⟨C10_duplicate_entries sentinelProfile unread1 contentDup dataDup outDup bookA
    rfl rfl rfl rfl, rfl, rfl, ?_⟩
  have h1 : outDup.length = 2 := rfl
  have h2 : unread1.length = 1 := rfl
  omega
